import Mathlib

/-!
# Verification of the qron game server core

Shallow embedding of the authoritative game-server core of the qron
repository (`src/server/game/Player.ts`, `src/server/game/Game.ts`,
`src/server/game/BotAI.ts`, `src/server/game/GameManager.ts`,
`src/server/security/AntiCheat.ts`, `src/server/index.ts`).

Modelling conventions:
* JavaScript numbers holding grid coordinates are embedded as `Int`;
  fractional quantities (arena size, shrink rate, game speed, sub-step
  accumulators, prizes, scores) are embedded as `ℚ`.  All the comparisons
  and clamps the claims depend on are exact at the modelled values.
* `Map` objects (insertion ordered) are embedded as association lists in
  insertion order; `Map.get`/`Map.set` become `find?`/pointwise update.
* Wall-clock reads (`Date.now()`) become explicit `now : Int` parameters.
* Socket broadcasts carry no simulation state and are dropped; the
  `game_end` payload is modelled by the pure function `endGameRankings`.
-/

namespace Qron

/-- Mirrors `Position` (src/server/game/Player.ts). -/
structure Position where
  x : Int
  y : Int
deriving DecidableEq, Repr

/-- Mirrors `Direction` (src/server/game/Player.ts). -/
structure Direction where
  dx : Int
  dy : Int
deriving DecidableEq, Repr

/-- Mirrors the `Player` class fields (src/server/game/Player.ts).
`color` and `lastMoveTime` are rendering/interpolation-only and carry no
simulation semantics; `lastInputTime` is kept as an integer timestamp. -/
structure Player where
  id : String
  walletAddress : String
  name : String
  position : Position
  prevPosition : Position
  direction : Direction
  trail : List Position
  alive : Bool
  isBot : Bool
  joinedAt : Int
  kills : Nat
  lastInputTime : Int
  subStep : ℚ
  trailDelay : Nat
  survivalTime : Nat
deriving DecidableEq, Repr

/-- The `Player` constructor (src/server/game/Player.ts, constructor). -/
def mkPlayer (id walletAddress name : String) (isBot : Bool) (joinedAt : Int) : Player :=
  { id := id, walletAddress := walletAddress, name := name,
    position := ⟨0, 0⟩, prevPosition := ⟨0, 0⟩, direction := ⟨1, 0⟩,
    trail := [], alive := true, isBot := isBot, joinedAt := joinedAt,
    kills := 0, lastInputTime := 0, subStep := 0, trailDelay := 2, survivalTime := 0 }

/-- `Player.setPosition` (src/server/game/Player.ts). -/
def Player.setPosition (p : Player) (x y : Int) : Player :=
  { p with prevPosition := p.position, position := ⟨x, y⟩ }

/-- `Player.setDirection` (src/server/game/Player.ts): the new direction is
applied unless it is the exact reverse of the current one. -/
def Player.setDirection (p : Player) (dx dy : Int) : Player :=
  if p.direction.dx + dx ≠ 0 ∨ p.direction.dy + dy ≠ 0 then
    { p with direction := ⟨dx, dy⟩ }
  else p

/-- `Player.addTrailSegment` (src/server/game/Player.ts): both branches of
the source's `trailDelay` conditional push the current position, as in the
source. -/
def Player.addTrailSegment (p : Player) : Player :=
  if p.trail.length ≥ p.trailDelay then { p with trail := p.trail ++ [p.position] }
  else { p with trail := p.trail ++ [p.position] }

/-- `Player.eliminate` (src/server/game/Player.ts). -/
def Player.eliminate (p : Player) : Player :=
  { p with alive := false }

/-! ## Anti-cheat filter (src/server/security/AntiCheat.ts) -/

/-- Mirrors `InputHistory` (src/server/security/AntiCheat.ts). -/
structure InputHistory where
  timestamp : Int
  direction : String
deriving DecidableEq, Repr

/-- Mirrors `PlayerData` (src/server/security/AntiCheat.ts). -/
structure PlayerData where
  inputHistory : List InputHistory
  lastPosition : Option Position
  warningCount : Nat
  flagged : Bool
deriving DecidableEq, Repr

/-- The `AntiCheat.playerData` map: an insertion-ordered association list. -/
abbrev AntiCheatState := List (String × PlayerData)

def MAX_WARNINGS : Nat := 3
def MIN_INPUT_DELAY : Int := 50

def freshPlayerData : PlayerData :=
  { inputHistory := [], lastPosition := none, warningCount := 0, flagged := false }

/-- `Map.get` on the player-data map. -/
def acFind (s : AntiCheatState) (pid : String) : Option PlayerData :=
  (s.find? (fun e => e.1 == pid)).map Prod.snd

/-- `Map.set` on the player-data map: replace in place if the key exists,
append otherwise (JS `Map` insertion-order semantics). -/
def acSet (s : AntiCheatState) (pid : String) (d : PlayerData) : AntiCheatState :=
  if (s.find? (fun e => e.1 == pid)).isSome then
    s.map (fun e => if e.1 == pid then (pid, d) else e)
  else s ++ [(pid, d)]

/-- `AntiCheat.flagPlayer` (the mutation of the player's record): increment
the warning count and set the permanent flag once `MAX_WARNINGS` is
reached. -/
def flagPlayerData (d : PlayerData) : PlayerData :=
  let d1 := { d with warningCount := d.warningCount + 1 }
  if d1.warningCount ≥ MAX_WARNINGS then { d1 with flagged := true } else d1

/-- `AntiCheat.validateInputTiming`: true iff the history is empty or the
new input arrives at least `MIN_INPUT_DELAY` after the last recorded one. -/
def validateInputTiming (d : PlayerData) (now : Int) : Bool :=
  match d.inputHistory.getLast? with
  | none => true
  | some lastInput => now - lastInput.timestamp ≥ MIN_INPUT_DELAY

/-- `AntiCheat.validateDirection`. -/
def validateDirection (direction : String) : Bool :=
  ["up", "down", "left", "right"].contains direction

/-- Inter-arrival intervals of the recorded inputs (`detectBotPattern`'s
`intervals` array). -/
def intervalsOf (hist : List InputHistory) : List Int :=
  (hist.zip hist.tail).map (fun pr => pr.2.timestamp - pr.1.timestamp)

/-- `AntiCheat.detectBotPattern`: with at least 10 recorded inputs, flag a
suspiciously uniform cadence.  The source compares `Math.sqrt(variance) <
10`; since both sides are nonnegative this is exactly `variance < 100`,
which avoids an irrational square root in the model. -/
def detectBotPattern (d : PlayerData) : Bool :=
  if d.inputHistory.length < 10 then false
  else
    let intervals := intervalsOf d.inputHistory
    let n : ℚ := intervals.length
    let mean : ℚ := ((intervals.map (fun i => (i : ℚ))).sum) / n
    let variance : ℚ := ((intervals.map (fun v => ((v : ℚ) - mean) ^ 2)).sum) / n
    decide (variance < 100)

/-- `AntiCheat.validateInput`: returns the verdict and the updated
player-data map.  Mirrors the source's order of checks: existing flag,
input timing, direction token, bot pattern; a passing input is recorded
and the history window capped at the last 20 entries. -/
def validateInput (s : AntiCheatState) (pid : String) (direction : String) (now : Int) :
    Bool × AntiCheatState :=
  let s1 := if (acFind s pid).isSome then s else acSet s pid freshPlayerData
  match acFind s1 pid with
  | none => (false, s1)
  | some data =>
    if data.flagged then (false, s1)
    else if ¬ validateInputTiming data now then (false, acSet s1 pid (flagPlayerData data))
    else if ¬ validateDirection direction then (false, acSet s1 pid (flagPlayerData data))
    else if detectBotPattern data then (false, acSet s1 pid (flagPlayerData data))
    else
      let hist := data.inputHistory ++ [⟨now, direction⟩]
      let hist2 := if hist.length > 20 then hist.tail else hist
      (true, acSet s1 pid { data with inputHistory := hist2 })

/-- `AntiCheat.clearPlayerData`. -/
def clearPlayerData (s : AntiCheatState) (pid : String) : AntiCheatState :=
  s.filter (fun e => !(e.1 == pid))

/-- `AntiCheat.isPlayerFlagged`. -/
def isPlayerFlagged (s : AntiCheatState) (pid : String) : Bool :=
  ((acFind s pid).map PlayerData.flagged).getD false

/-! ## Match simulation (src/server/game/Game.ts) -/

/-- Mirrors `GameModeConfig` (src/server/game/GameManager.ts). -/
structure GameModeConfig where
  id : String
  name : String
  players : Nat
  gridSize : Nat
  entryFee : ℚ
  prize : ℚ
deriving DecidableEq, Repr

/-- `Game.state` values. -/
inductive LifecycleState where
  | waiting
  | active
  | finished
deriving DecidableEq, Repr

/-- `Game.shrinkPhase` values. -/
inductive ShrinkPhase where
  | stable
  | warning
  | danger
  | panic
deriving DecidableEq, Repr

/-- The mutable fields of the `Game` class (src/server/game/Game.ts).
`players` is the insertion-ordered participant map (keyed by `Player.id`);
`botTick` is the `BotAI.tickCounter` of the game's bot controller.
Broadcast bookkeeping (`lastBroadcastTime`, `lastTickTime`, `startTime`)
carries no simulation semantics and is omitted. -/
structure GameState where
  id : String
  players : List Player
  gridSize : ℚ
  arenaSize : ℚ
  shrinkRate : ℚ
  state : LifecycleState
  gameSpeed : ℚ
  tickCounter : Nat
  shrinkPhase : ShrinkPhase
  mode : GameModeConfig
  lastSpeedIncreaseTime : Int
  botTick : Nat
deriving DecidableEq, Repr

def tickRate : Nat := 20
def MIN_SPEED : ℚ := 3/10
def MAX_SPEED : ℚ := 7/10
def SPEED_INCREASE_INTERVAL : Int := 5000
def SPEED_INCREMENT : ℚ := 5/100

/-- `Map.get` on a participant map. -/
def findPlayer (ps : List Player) (pid : String) : Option Player :=
  ps.find? (fun p => p.id == pid)

/-- `Map.set` at an existing key: the participant object keyed by `pid` is
replaced by `q` (participant ids are the map keys). -/
def setPlayer (ps : List Player) (pid : String) (q : Player) : List Player :=
  ps.map (fun p => if p.id == pid then q else p)

/-- `Game.checkCollision` (src/server/game/Game.ts): outside the current
arena inset, or on any participant's trail (alive or eliminated, own trail
included).  The source's `playerId` parameter is unused there and dropped
here. -/
def checkCollision (gridSize arenaSize : ℚ) (players : List Player) (x y : Int) : Bool :=
  let limit := (gridSize - arenaSize) / 2
  if (x : ℚ) < limit ∨ (x : ℚ) ≥ gridSize - limit ∨ (y : ℚ) < limit ∨ (y : ℚ) ≥ gridSize - limit then
    true
  else
    players.any (fun p => p.trail.any (fun segment => segment.x == x && segment.y == y))

/-- One mover's `while (player.subStep >= 1.0)` loop from `Game.tick`.
Each iteration consumes one full-cell step: decrement the accumulator,
compute the next cell along the heading, eliminate the mover if that cell
collides (stopping its movement for this tick), otherwise move it, append
the cell to its trail and stamp its survival tick.  `fuel` bounds the
iteration count; the guard `1 ≤ subStep` keeps the exact `while`
semantics whenever `fuel ≥ ⌊subStep⌋`, which holds for the caller's choice
`fuel = subStep.num.toNat`.  The near-miss check only emits a socket event
and is dropped. -/
def moveLoop (gridSize arenaSize : ℚ) (tickCounter : Nat) :
    Nat → List Player → String → List Player
  | 0, ps, _ => ps
  | fuel + 1, ps, pid =>
    match findPlayer ps pid with
    | none => ps
    | some p =>
      if 1 ≤ p.subStep then
        let p1 := { p with subStep := p.subStep - 1 }
        let nextX := p1.position.x + p1.direction.dx
        let nextY := p1.position.y + p1.direction.dy
        if checkCollision gridSize arenaSize ps nextX nextY then
          setPlayer ps pid p1.eliminate
        else
          let p2 := (p1.setPosition nextX nextY).addTrailSegment
          let p3 := { p2 with survivalTime := tickCounter }
          moveLoop gridSize arenaSize tickCounter fuel (setPlayer ps pid p3) pid
      else ps

/-- The per-participant body of the movement phase of `Game.tick`: skip
eliminated participants, accumulate `gameSpeed` into the sub-step counter,
then run the full-cell-step loop. -/
def processPlayer (gridSize arenaSize gameSpeed : ℚ) (tickCounter : Nat)
    (ps : List Player) (pid : String) : List Player :=
  match findPlayer ps pid with
  | none => ps
  | some p =>
    if p.alive then
      let p1 := { p with subStep := p.subStep + gameSpeed }
      moveLoop gridSize arenaSize tickCounter p1.subStep.num.toNat (setPlayer ps pid p1) pid
    else ps

/-- The `this.players.forEach(...)` movement phase of `Game.tick`,
processing participants in insertion order against the evolving shared
state (earlier movers' trail growth is visible to later movers). -/
def movePhase (gridSize arenaSize gameSpeed : ℚ) (tickCounter : Nat)
    (ps : List Player) : List Player :=
  (ps.map Player.id).foldl (processPlayer gridSize arenaSize gameSpeed tickCounter) ps

/-- `Game.updateArenaShrink`: shrink by the mode's rate clamped to the
25%-of-grid floor, and recompute the shrink phase from the size ratio.
Returns the new arena size and phase. -/
def updateArenaShrink (gridSize arenaSize shrinkRate : ℚ) : ℚ × ShrinkPhase :=
  let minSize := gridSize * (1/4)
  let newArena := max (arenaSize - shrinkRate) minSize
  let percentage := newArena / gridSize * 100
  let phase :=
    if percentage < 30 then ShrinkPhase.panic
    else if percentage < 50 then ShrinkPhase.danger
    else if percentage < 70 then ShrinkPhase.warning
    else ShrinkPhase.stable
  (newArena, phase)

/-! ## Bot controller (src/server/game/BotAI.ts) -/

def LOOK_AHEAD : Nat := 5
def DANGER_THRESHOLD : ℚ := 3
def BOT_THINK_INTERVAL : Nat := 3

/-- `BotAI.isCollision`: same body as `Game.checkCollision` (the source
duplicates it). -/
def isCollision (gridSize arenaSize : ℚ) (players : List Player) (x y : Int) : Bool :=
  let limit := (gridSize - arenaSize) / 2
  if (x : ℚ) < limit ∨ (x : ℚ) ≥ gridSize - limit ∨ (y : ℚ) < limit ∨ (y : ℚ) ≥ gridSize - limit then
    true
  else
    players.any (fun p => p.trail.any (fun segment => segment.x == x && segment.y == y))

/-- The look-ahead loop of `BotAI.scoreDirection`: walk up to `LOOK_AHEAD`
cells along the candidate heading from the candidate destination; at the
first projected collision return the penalty `(LOOK_AHEAD - i + 1) * 20`
(here `k + 1` remaining iterations means `i = LOOK_AHEAD - k`). -/
def lookAheadPenalty (gridSize arenaSize : ℚ) (players : List Player) (dx dy : Int) :
    Int → Int → Nat → ℚ
  | _, _, 0 => 0
  | cx, cy, k + 1 =>
    let cx2 := cx + dx
    let cy2 := cy + dy
    if isCollision gridSize arenaSize players cx2 cy2 then ((k : ℚ) + 1) * 20
    else lookAheadPenalty gridSize arenaSize players dx dy cx2 cy2 k

def checkRadiusOffsets : List Int := [-3, -2, -1, 0, 1, 2, 3]

/-- `BotAI.countOpenSpace`: the number of non-colliding cells in the 7×7
neighbourhood of the candidate destination. -/
def countOpenSpace (gridSize arenaSize : ℚ) (players : List Player) (x y : Int) : Nat :=
  (checkRadiusOffsets.map (fun dx =>
    (checkRadiusOffsets.filter
      (fun dy => !(isCollision gridSize arenaSize players (x + dx) (y + dy)))).length)).sum

/-- `BotAI.scoreDirection`: baseline 100; `-1000` if the immediate next
cell collides; otherwise subtract the look-ahead penalty, a center-distance
penalty, a shrinking-boundary proximity penalty, and add an open-space
bonus. -/
def scoreDirection (gridSize arenaSize : ℚ) (players : List Player) (bot : Player)
    (direction : Direction) : ℚ :=
  let nextX := bot.position.x + direction.dx
  let nextY := bot.position.y + direction.dy
  if isCollision gridSize arenaSize players nextX nextY then -1000
  else
    let score1 := (100 : ℚ) -
      lookAheadPenalty gridSize arenaSize players direction.dx direction.dy nextX nextY LOOK_AHEAD
    let center := gridSize / 2
    let distanceToCenter := |(nextX : ℚ) - center| + |(nextY : ℚ) - center|
    let score2 := score1 - distanceToCenter * (1/2)
    let limit := (gridSize - arenaSize) / 2
    let distanceToEdge :=
      min (min ((nextX : ℚ) - limit) ((nextY : ℚ) - limit))
        (min (gridSize - limit - (nextX : ℚ)) (gridSize - limit - (nextY : ℚ)))
    let score3 :=
      if distanceToEdge < DANGER_THRESHOLD then score2 - (DANGER_THRESHOLD - distanceToEdge) * 30
      else score2
    score3 + (countOpenSpace gridSize arenaSize players nextX nextY : ℚ) * 2

def possibleDirections : List Direction := [⟨0, -1⟩, ⟨0, 1⟩, ⟨-1, 0⟩, ⟨1, 0⟩]

/-- `BotAI.calculateBestDirection`: score the non-reversing candidates,
sort by descending score (the source's comparator `b.score - a.score`),
and return the best candidate only when its score is strictly positive. -/
def calculateBestDirection (gridSize arenaSize : ℚ) (players : List Player)
    (bot : Player) : Option Direction :=
  let validDirections := possibleDirections.filter
    (fun d => bot.direction.dx + d.dx != 0 || bot.direction.dy + d.dy != 0)
  let scored := validDirections.map
    (fun d => (d, scoreDirection gridSize arenaSize players bot d))
  let sorted := scored.insertionSort (fun a b => b.2 ≤ a.2)
  match sorted with
  | [] => none
  | top :: _ => if 0 < top.2 then some top.1 else none

/-- The decision application inside `BotAI.updateBots`: steer to the best
direction when one is returned, otherwise leave the heading unchanged. -/
def applyBotDecision (gridSize arenaSize : ℚ) (players : List Player) (p : Player) : Player :=
  match calculateBestDirection gridSize arenaSize players p with
  | some d => p.setDirection d.dx d.dy
  | none => p

/-- The id-derived stagger offset of `BotAI.updateBots`:
`parseInt(player.id.split('_').pop() || '0') % 3`.  Manager-made bot ids
end in a decimal index; a non-numeric suffix gives `NaN` in the source, in
which case the cadence test `(tickCounter + NaN) % 3 !== 0` is always true
and the bot never rethinks — modelled by `none`. -/
def botThinkOffset (id : String) : Option Nat :=
  let lastPart := ((id.splitOn "_").getLast?).getD ""
  let lastPart2 := if lastPart = "" then "0" else lastPart
  lastPart2.toNat? |>.map (fun n => n % BOT_THINK_INTERVAL)

/-- The per-participant body of `BotAI.updateBots`: skip non-bots, the
eliminated, and bots off their staggered cadence; otherwise recompute the
bot's heading against the current shared state. -/
def botDecisionStep (gridSize arenaSize : ℚ) (botTick : Nat)
    (cur : List Player) (pid : String) : List Player :=
  match findPlayer cur pid with
  | none => cur
  | some p =>
    if !p.isBot || !p.alive then cur
    else
      match botThinkOffset p.id with
      | none => cur
      | some off =>
        if (botTick + off) % BOT_THINK_INTERVAL ≠ 0 then cur
        else setPlayer cur pid (applyBotDecision gridSize arenaSize cur p)

/-- `BotAI.updateBots` after its `tickCounter` increment (`botTick` is the
already-incremented counter), processing participants in insertion
order. -/
def updateBots (gridSize arenaSize : ℚ) (botTick : Nat) (ps : List Player) : List Player :=
  (ps.map Player.id).foldl (botDecisionStep gridSize arenaSize botTick) ps

/-! ## The tick loop and termination (src/server/game/Game.ts) -/

/-- The mode's win threshold computed in `Game.tick`. -/
def winCondition (mode : GameModeConfig) : Nat :=
  if mode.players ≤ 2 then 1 else if mode.players ≤ 4 then 1 else 3

/-- `Game.tick` (src/server/game/Game.ts): on an active game, bump the
tick counter, apply the 5-second progressive speed increase, run bot
decisions on every second tick, move every living participant, shrink the
arena, and finish the game once the living count reaches the mode's win
threshold.  Pure broadcasts (`speed_boost`, `game_state`, `near_collision`,
`arena_phase`, `last_stand`, `player_eliminated`, `game_end`) are dropped;
the `game_end` rankings payload is `endGameRankings`. -/
def tick (now : Int) (g : GameState) : GameState :=
  if g.state ≠ LifecycleState.active then g
  else
    let tickCounter := g.tickCounter + 1
    let speedDue : Bool := now - g.lastSpeedIncreaseTime ≥ SPEED_INCREASE_INTERVAL
    let lastSpeedIncreaseTime := if speedDue then now else g.lastSpeedIncreaseTime
    let gameSpeed := if speedDue then min MAX_SPEED (g.gameSpeed + SPEED_INCREMENT) else g.gameSpeed
    let botTick := if tickCounter % 2 == 0 then g.botTick + 1 else g.botTick
    let ps1 :=
      if tickCounter % 2 == 0 then updateBots g.gridSize g.arenaSize botTick g.players
      else g.players
    let ps2 := movePhase g.gridSize g.arenaSize gameSpeed tickCounter ps1
    let shrunk := updateArenaShrink g.gridSize g.arenaSize g.shrinkRate
    let aliveCount := (ps2.filter (fun p => p.alive)).length
    let newState :=
      if aliveCount ≤ winCondition g.mode then LifecycleState.finished else g.state
    { g with tickCounter := tickCounter, lastSpeedIncreaseTime := lastSpeedIncreaseTime,
             gameSpeed := gameSpeed, botTick := botTick, players := ps2,
             arenaSize := shrunk.1, shrinkPhase := shrunk.2, state := newState }

/-- `Game.eliminatePlayer`'s state effect: mark the participant eliminated
(it stays in the map, its fields otherwise untouched). -/
def eliminatePlayer (ps : List Player) (pid : String) : List Player :=
  match findPlayer ps pid with
  | none => ps
  | some p => setPlayer ps pid p.eliminate

/-- The command-acceptance chain of `Game.handlePlayerInput`
(src/server/game/Game.ts): `up`/`down` only while the heading is
horizontal (`dy = 0`), `left`/`right` only while it is vertical
(`dx = 0`), applied through `Player.setDirection`. -/
def applyDirectionCommand (p : Player) (direction : String) : Player :=
  if direction == "up" && p.direction.dy == 0 then p.setDirection 0 (-1)
  else if direction == "down" && p.direction.dy == 0 then p.setDirection 0 1
  else if direction == "left" && p.direction.dx == 0 then p.setDirection (-1) 0
  else if direction == "right" && p.direction.dx == 0 then p.setDirection 1 0
  else p

/-- `Game.handlePlayerInput` (src/server/game/Game.ts): directional
commands are accepted only for living human participants and applied
through the acceptance chain; the input timestamp is recorded. -/
def handlePlayerInput (g : GameState) (pid : String) (direction : String) (now : Int) :
    GameState :=
  match findPlayer g.players pid with
  | none => g
  | some p =>
    if !p.alive || p.isBot then g
    else
      let p2 := { applyDirectionCommand p direction with lastInputTime := now }
      { g with players := setPlayer g.players pid p2 }

/-- `Game.removePlayer` (mid-match disconnect): a living participant is
run through the same elimination path as a collision; the participant map
never loses the entry. -/
def removePlayer (g : GameState) (pid : String) : GameState :=
  match findPlayer g.players pid with
  | none => g
  | some p =>
    if p.alive then { g with players := eliminatePlayer g.players pid } else g

/-! ## Termination payload (src/server/game/Game.ts, endGame/calculatePrize) -/

/-- The ranking order of `Game.endGame`'s comparator: `a` may be placed
before `b` iff `a` is alive and `b` is not, or they share the alive flag
and `a` survived at least as many ticks. -/
def rankLE (a b : Player) : Prop :=
  (a.alive = true ∧ b.alive = false) ∨ (a.alive = b.alive ∧ b.survivalTime ≤ a.survivalTime)

instance : DecidableRel rankLE := fun a b => by
  unfold rankLE; infer_instance

instance : IsTotal Player rankLE where
  total a b := by
    unfold rankLE
    rcases ha : a.alive <;> rcases hb : b.alive <;> simp [ha, hb] <;>
      exact Nat.le_total b.survivalTime a.survivalTime

instance : IsTrans Player rankLE where
  trans a b c hab hbc := by
    unfold rankLE at *
    rcases hab with ⟨ha, hb⟩ | ⟨hab, sab⟩
    · rcases hbc with ⟨hb2, _⟩ | ⟨hbc, _⟩
      · rw [hb] at hb2; cases hb2
      · exact Or.inl ⟨ha, hbc.symm.trans hb⟩
    · rcases hbc with ⟨hb2, hc⟩ | ⟨hbc, sbc⟩
      · exact Or.inl ⟨hab.trans hb2, hc⟩
      · exact Or.inr ⟨hab.trans hbc, sbc.trans sab⟩

/-- One row of the `game_end` rankings payload. -/
structure RankEntry where
  rank : Nat
  playerId : String
  playerName : String
  alive : Bool
  kills : Nat
  survivalSecs : Nat
  prizeShare : ℚ
deriving DecidableEq, Repr

/-- `Game.calculatePrize` (0-based rank index): winner-take-all for
2-player modes, 75/25 for 4-player modes, 69.4/20.8/9.8 for larger
modes, zero beyond the paid ranks. -/
def calculatePrize (mode : GameModeConfig) (rank : Nat) : ℚ :=
  let totalPrize := mode.prize
  if mode.players ≤ 2 then
    if rank == 0 then totalPrize else 0
  else if mode.players ≤ 4 then
    let distribution : List ℚ := [75/100, 25/100]
    if rank < distribution.length then totalPrize * distribution.getD rank 0 else 0
  else
    let distribution : List ℚ := [694/1000, 208/1000, 98/1000]
    if rank < distribution.length then totalPrize * distribution.getD rank 0 else 0

/-- The sorted participant list of `Game.endGame`: alive first, then by
descending survival ticks (the source's comparator, a stable sort
modelled by insertion sort). -/
def rankedPlayers (g : GameState) : List Player :=
  g.players.insertionSort rankLE

/-- The number of paid ranks of a mode's payout curve: 1 for 2-player
modes, 2 for 4-player modes, 3 for larger modes. -/
def paidRanks (mode : GameModeConfig) : Nat :=
  if mode.players ≤ 2 then 1 else if mode.players ≤ 4 then 2 else 3

/-- The rankings payload of `Game.endGame`: the sorted participants with
1-based ranks and per-rank prize shares. -/
def endGameRankings (g : GameState) : List RankEntry :=
  (rankedPlayers g).enum.map (fun pr =>
    { rank := pr.1 + 1, playerId := pr.2.id, playerName := pr.2.name,
      alive := pr.2.alive, kills := pr.2.kills,
      survivalSecs := pr.2.survivalTime / tickRate,
      prizeShare := calculatePrize g.mode pr.1 })

/-! ## Spawn layout (src/server/game/Game.ts, initializePlayerPositions)

The spawn coordinates come from floating-point trigonometry
(`Math.floor(center + cos/sin(angle) * 0.35 * gridSize)`); the integer
result is taken as a parameter here, and the rest of the source body —
seed the trail with the spawn cell, head toward the center along the axis
of larger displacement — is embedded exactly. -/

/-- The per-participant body of `Game.initializePlayerPositions` given the
computed integer spawn cell `(x, y)` and the grid center. -/
def spawnPlayer (p : Player) (x y : Int) (center : ℚ) : Player :=
  let p1 := (p.setPosition x y).addTrailSegment
  let dx : ℚ := center - (x : ℚ)
  let dy : ℚ := center - (y : ℚ)
  if |dy| < |dx| then p1.setDirection (if 0 < dx then 1 else -1) 0
  else p1.setDirection 0 (if 0 < dy then 1 else -1)

/-! ## Matchmaking / lobby coordinator (src/server/game/GameManager.ts) -/

/-- The mode catalog `GAME_MODES`. -/
def duelMode : GameModeConfig :=
  { id := "duel", name := "1v1", players := 2, gridSize := 36, entryFee := 1/2, prize := 9/10 }

def squadMode : GameModeConfig :=
  { id := "squad", name := "SQUAD", players := 4, gridSize := 52, entryFee := 1/2, prize := 18/10 }

def rankedMode : GameModeConfig :=
  { id := "ranked", name := "RANKED", players := 8, gridSize := 84, entryFee := 1, prize := 72/10 }

def arenaMode : GameModeConfig :=
  { id := "arena", name := "ARENA", players := 10, gridSize := 112, entryFee := 1, prize := 9 }

/-- The per-mode shrink rate chosen in the `Game` constructor. -/
def shrinkRateFor (gridSize : Nat) : ℚ :=
  if gridSize ≤ 40 then 2/1000
  else if gridSize ≤ 55 then 3/1000
  else if gridSize ≤ 90 then 4/1000
  else 5/1000

def LOBBY_TIMEOUT : Int := 15000

def botNames : List String :=
  ["NEON_PULSE", "GRID_MASTER", "SECTOR_7", "VOID_HUNTER",
   "BYTE_RUNNER", "APEX_NODE", "TRON_WOLF", "CIRCUIT_BREAKER",
   "LASER_EDGE", "QUANTUM_DRIFT", "CYBER_HAWK", "FLASH_ZERO",
   "PIXEL_STORM", "DATA_BLADE", "ECHO_PRIME", "GHOST_RIDER"]

/-- `GameManager.fillWithBots`: append `mode.players - lobby.size` bot
participants to the lobby.  Bot ids carry the mode, the timestamp and the
index, as in the source. -/
def fillWithBots (mode : GameModeConfig) (modeId : String) (lobby : List Player)
    (now : Int) : List Player :=
  let botsNeeded := mode.players - lobby.length
  lobby ++ (List.range botsNeeded).map (fun i =>
    mkPlayer ("bot_" ++ modeId ++ "_" ++ toString now ++ "_" ++ toString i)
      "BOT_WALLET" (botNames.getD (i % botNames.length) "") true now)

/-- `GameManager.startGame`'s lobby effect: carve off the first
`mode.players` lobby members into a match (none when the lobby is empty)
and delete them from the lobby.  Returns the match participants and the
remaining lobby. -/
def startGame (mode : GameModeConfig) (lobby : List Player) :
    Option (List Player) × List Player :=
  let players := lobby.take mode.players
  if players.length < 1 then (none, lobby)
  else (some players, lobby.filter (fun q => !(players.any (fun p => p.id == q.id))))

/-- One mode's branch of the periodic `GameManager.startLobbyCheck` sweep:
for a non-empty, non-full lobby whose oldest member has waited longer than
`LOBBY_TIMEOUT`, and only when demo mode (the bot-backfill kill switch) is
off, fill with bots and start the match.  Returns the new lobby and the
started match's participants, if any.  (The sweep's log lines are
dropped.) -/
def lobbyCheckMode (demoMode : Bool) (mode : GameModeConfig) (modeId : String)
    (lobby : List Player) (now : Int) : List Player × Option (List Player) :=
  if 1 ≤ lobby.length ∧ lobby.length < mode.players then
    match lobby.head? with
    | none => (lobby, none)
    | some oldestPlayer =>
      if demoMode = false ∧ now - oldestPlayer.joinedAt > LOBBY_TIMEOUT then
        let filled := fillWithBots mode modeId lobby now
        let result := startGame mode filled
        (result.2, result.1)
      else (lobby, none)
  else (lobby, none)

/-! ## Claim predicates and concrete instances -/

/-- The C10 invariant for one participant: the trail is non-empty and its
last element is the participant's current position (the head cell is
trail-occupied). -/
def trailInv (p : Player) : Prop :=
  p.trail ≠ [] ∧ p.trail.getLast? = some p.position

/-- The C1 invariant for one participant: with
`limit = (gridSize - arenaSize) / 2`, both coordinates `c` satisfy
`limit ≤ c < gridSize - limit`. -/
def insideInset (gridSize arenaSize : ℚ) (p : Player) : Prop :=
  let limit := (gridSize - arenaSize) / 2
  limit ≤ (p.position.x : ℚ) ∧ (p.position.x : ℚ) < gridSize - limit ∧
  limit ≤ (p.position.y : ℚ) ∧ (p.position.y : ℚ) < gridSize - limit

/-- The C1 invariant: every living participant lies inside the current
arena inset. -/
def livingInsideInset (g : GameState) : Prop :=
  ∀ p ∈ g.players, p.alive = true → insideInset g.gridSize g.arenaSize p

/-- C1 counterexample state, participant A: alive at `x = 9`, the exact
boundary column of the inset once the arena has shrunk to edge length 18
on a 36-grid (`limit = 9`). -/
def c1PlayerA : Player :=
  { id := "a", walletAddress := "wa", name := "A",
    position := ⟨9, 18⟩, prevPosition := ⟨9, 18⟩, direction := ⟨0, 1⟩,
    trail := [⟨9, 18⟩], alive := true, isBot := false, joinedAt := 0,
    kills := 0, lastInputTime := 0, subStep := 0, trailDelay := 2, survivalTime := 0 }

def c1PlayerB : Player :=
  { id := "b", walletAddress := "wb", name := "B",
    position := ⟨20, 20⟩, prevPosition := ⟨20, 20⟩, direction := ⟨0, -1⟩,
    trail := [⟨20, 20⟩], alive := true, isBot := false, joinedAt := 0,
    kills := 0, lastInputTime := 0, subStep := 0, trailDelay := 2, survivalTime := 0 }

/-- C1 counterexample state: an active duel on a 36-grid, arena shrunk to
exactly 18 (reachable: `36 - 9000 × 0.002`), both participants alive and
inside the inset, neither accumulating a full-cell step this tick
(`subStep + gameSpeed = 0.3 < 1`). -/
def c1Game : GameState :=
  { id := "g1", players := [c1PlayerA, c1PlayerB], gridSize := 36, arenaSize := 18,
    shrinkRate := 2/1000, state := LifecycleState.active, gameSpeed := 3/10,
    tickCounter := 0, shrinkPhase := ShrinkPhase.warning, mode := duelMode,
    lastSpeedIncreaseTime := 0, botTick := 0 }

/-- The C1 counterexample state after one tick, computed by hand: nobody
moved (sub-steps at 0.3), the arena shrank to 17.998, so the inset limit
became 9.001 and participant A at `x = 9` is now outside while alive. -/
def c1GameAfter : GameState :=
  { id := "g1",
    players := [{ c1PlayerA with subStep := 3/10 }, { c1PlayerB with subStep := 3/10 }],
    gridSize := 36, arenaSize := 8999/500, shrinkRate := 2/1000,
    state := LifecycleState.active, gameSpeed := 3/10, tickCounter := 1,
    shrinkPhase := ShrinkPhase.danger, mode := duelMode,
    lastSpeedIncreaseTime := 0, botTick := 0 }

/-- C3 scenario: the fixed participant id used in the uniform-cadence
trace. -/
def cheaterId : String := "cheater"

/-- C3 scenario: run `n` directional inputs from one participant at a
perfectly uniform 20 ms cadence (timestamps `0, 20, 40, …`) through the
anti-cheat filter, collecting the verdicts. -/
def c3Fold (n : Nat) : AntiCheatState × List Bool :=
  (List.range n).foldl
    (fun acc i =>
      let r := validateInput acc.1 cheaterId "up" (20 * (i : Int))
      (r.2, acc.2 ++ [r.1]))
    ([], [])

def c3StateAfter (n : Nat) : AntiCheatState := (c3Fold n).1

/-- C3 scenario: the verdicts of the 25 uniform-cadence inputs. -/
def c3Results : List Bool := (c3Fold 25).2

/-- C5 witness data: a participant record whose warning count has reached
`MAX_WARNINGS` and which is flagged. -/
def c5FlaggedData : PlayerData :=
  { inputHistory := [⟨0, "up"⟩, ⟨60, "up"⟩], lastPosition := none,
    warningCount := 3, flagged := true }

/-- C5 witness data: a tracking map holding one flagged participant. -/
def c5Tracking : AntiCheatState := [("x", c5FlaggedData)]

/-- C7 witness data: a single human joiner waiting in the duel lobby
since timestamp 0. -/
def c7Joiner : Player := mkPlayer "p1" "w1" "P1" false 0

/-- C6 witness data: a bot at the left arena edge heading down; turning
left would leave the arena, continuing down is free. -/
def c6Bot : Player :=
  { id := "bot_x_0", walletAddress := "BOT_WALLET", name := "NEON_PULSE",
    position := ⟨0, 5⟩, prevPosition := ⟨0, 5⟩, direction := ⟨0, 1⟩,
    trail := [⟨0, 5⟩], alive := true, isBot := true, joinedAt := 0,
    kills := 0, lastInputTime := 0, subStep := 0, trailDelay := 2, survivalTime := 0 }

def c6Players : List Player := [c6Bot]

/-- C2/C4 witness data: a surviving participant with 100 survival ticks. -/
def c2PlayerA : Player := { c1PlayerA with survivalTime := 100 }

/-- C2/C4 witness data: an eliminated participant with 50 survival ticks. -/
def c2PlayerB : Player := { c1PlayerB with alive := false, survivalTime := 50 }

/-- C2 witness data: a finished duel — participant A alive with 100
survival ticks, participant B eliminated with 50. -/
def c2Game : GameState :=
  { id := "g2",
    players := [c2PlayerA, c2PlayerB],
    gridSize := 36, arenaSize := 18, shrinkRate := 2/1000,
    state := LifecycleState.finished, gameSpeed := 3/10, tickCounter := 100,
    shrinkPhase := ShrinkPhase.warning, mode := duelMode,
    lastSpeedIncreaseTime := 0, botTick := 0 }

end Qron

/-! ## Theorems -/

namespace Qron

/-- Helper: an active tick's arena size is the shrink-clamped value. -/
theorem tick_arenaSize_of_active (g : GameState) (now : Int)
    (hact : g.state = LifecycleState.active) :
    (tick now g).arenaSize = max (g.arenaSize - g.shrinkRate) (g.gridSize * (1/4)) := by
  simp [tick, hact, updateArenaShrink]

/-- C9: over a match's lifetime the arena edge length is monotonically
non-increasing — each active tick subtracts the mode's shrink rate — and
it never drops below 0.25 × gridSize, being clamped at exactly that floor
once the unclamped value would fall below it. -/
theorem c9_arena_monotone_floor (g : GameState) (now : Int)
    (hact : g.state = LifecycleState.active)
    (hrate : 0 ≤ g.shrinkRate)
    (hfloor : g.gridSize * (1/4) ≤ g.arenaSize) :
    (tick now g).arenaSize ≤ g.arenaSize ∧
    g.gridSize * (1/4) ≤ (tick now g).arenaSize ∧
    (g.gridSize * (1/4) ≤ g.arenaSize - g.shrinkRate →
      (tick now g).arenaSize = g.arenaSize - g.shrinkRate) ∧
    (g.arenaSize - g.shrinkRate ≤ g.gridSize * (1/4) →
      (tick now g).arenaSize = g.gridSize * (1/4)) := by
  rw [tick_arenaSize_of_active g now hact]
  refine ⟨max_le (by linarith) hfloor, le_max_right _ _, ?_, ?_⟩
  · intro h; exact max_eq_left h
  · intro h; exact max_eq_right h

/-- C9 witness: the concrete C1 state satisfies the hypotheses; one tick
shrinks the arena from 18 to 17.998, still above the floor 9. -/
theorem c9_arena_monotone_floor_witness :
    c1Game.state = LifecycleState.active ∧ 0 ≤ c1Game.shrinkRate ∧
    c1Game.gridSize * (1/4) ≤ c1Game.arenaSize ∧
    (tick 7 c1Game).arenaSize ≤ c1Game.arenaSize :=
  ⟨rfl, by norm_num [c1Game], by norm_num [c1Game],
    (c9_arena_monotone_floor c1Game 7 rfl (by norm_num [c1Game]) (by norm_num [c1Game])).1⟩

/-- Helper: one tick of the C1 counterexample state, evaluated. -/
theorem c1_tick_eval : tick 0 c1Game = c1GameAfter := by
  norm_num +decide [tick, c1Game, c1GameAfter, c1PlayerA, c1PlayerB, movePhase, processPlayer,
    moveLoop, findPlayer, setPlayer, updateArenaShrink, updateBots, winCondition, duelMode,
    max_def, GameState.mk.injEq, Player.mk.injEq]

/-- C1 is false as stated: the tick of an active match does not preserve
the claimed invariant.  In the concrete active state `c1Game` every living
participant is inside the inset, yet after one tick — in which neither
participant accumulates a full-cell step while the arena shrinks —
participant A is alive at `x = 9` with the inset limit at 9.001, i.e.
outside the current arena inset. -/
theorem c1_counterexample :
    c1Game.state = LifecycleState.active ∧ livingInsideInset c1Game ∧
    ¬ livingInsideInset (tick 0 c1Game) := by
  refine ⟨rfl, ?_, ?_⟩
  · intro p hp hal
    simp only [c1Game, List.mem_cons, List.not_mem_nil, or_false] at hp
    rcases hp with rfl | rfl
    · norm_num [insideInset, c1PlayerA, c1Game]
    · norm_num [insideInset, c1PlayerB, c1Game]
  · rw [c1_tick_eval]
    intro h
    have hA := h { c1PlayerA with subStep := 3/10 }
      (by simp [c1GameAfter]) rfl
    norm_num [insideInset, c1PlayerA, c1GameAfter] at hA

/-- Helper: a collision-free destination cell lies inside the inset. -/
theorem collisionFalse_bounds (gridSize arenaSize : ℚ) (players : List Player)
    (x y : Int) (h : checkCollision gridSize arenaSize players x y = false) :
    (gridSize - arenaSize) / 2 ≤ (x : ℚ) ∧
    (x : ℚ) < gridSize - (gridSize - arenaSize) / 2 ∧
    (gridSize - arenaSize) / 2 ≤ (y : ℚ) ∧
    (y : ℚ) < gridSize - (gridSize - arenaSize) / 2 := by
  by_cases hb : ((x : ℚ) < (gridSize - arenaSize) / 2 ∨
      (x : ℚ) ≥ gridSize - (gridSize - arenaSize) / 2 ∨
      (y : ℚ) < (gridSize - arenaSize) / 2 ∨
      (y : ℚ) ≥ gridSize - (gridSize - arenaSize) / 2)
  · simp only [checkCollision, if_pos hb] at h
    exact absurd h (by simp)
  · push_neg at hb
    exact ⟨hb.1, hb.2.1, hb.2.2.1, hb.2.2.2⟩

/-- C1 (amended): each completed full-cell step lands inside the arena
inset as of that moment — whenever `checkCollision` reports no collision
for a destination cell, that cell satisfies
`limit ≤ c < gridSize - limit` on both coordinates.  Between steps the
invariant is not re-established: a tick's arena shrink can leave a
non-stepping living participant outside the new inset (the
counterexample above), with elimination deferred to its next attempted
step into an outside cell. -/
theorem c1_step_lands_inside_inset (gridSize arenaSize : ℚ) (players : List Player)
    (x y : Int) (h : checkCollision gridSize arenaSize players x y = false) :
    (gridSize - arenaSize) / 2 ≤ (x : ℚ) ∧
    (x : ℚ) < gridSize - (gridSize - arenaSize) / 2 ∧
    (gridSize - arenaSize) / 2 ≤ (y : ℚ) ∧
    (y : ℚ) < gridSize - (gridSize - arenaSize) / 2 :=
  collisionFalse_bounds gridSize arenaSize players x y h

/-- C1 amended-claim witness: a collision-free destination cell of the
C1 state indeed lies inside the inset. -/
theorem c1_step_lands_inside_inset_witness :
    checkCollision 36 18 [] 12 13 = false ∧
    ((36 : ℚ) - 18) / 2 ≤ (12 : ℚ) ∧
    ((12 : ℚ) : ℚ) < 36 - (36 - 18) / 2 ∧
    ((36 : ℚ) - 18) / 2 ≤ (13 : ℚ) ∧
    ((13 : ℚ) : ℚ) < 36 - (36 - 18) / 2 := by
  have h : checkCollision 36 18 [] 12 13 = false := by
    norm_num [checkCollision]
  exact ⟨h, c1_step_lands_inside_inset 36 18 [] 12 13 h⟩

/-- C3: a single participant sending 25 directional inputs (valid
direction tokens) at a perfectly uniform 20 ms cadence is flagged by the
anti-cheat filter within the first 20 inputs (in fact by input 5: the
sub-50 ms gaps accumulate 3 warnings), and every input sent after the
flagging is rejected. -/
theorem c3_uniform_cadence_flagged :
    isPlayerFlagged (c3StateAfter 5) cheaterId = true ∧
    isPlayerFlagged (c3StateAfter 20) cheaterId = true ∧
    c3Results.length = 25 ∧
    (c3Results.drop 5).all (fun b => b == false) = true := by
  decide

/-! ### Tracking-map lemmas (for C5) -/

/-- Helper: a key found on the left of an append is still found. -/
theorem acFind_append_left (s t : AntiCheatState) (pid : String) (d : PlayerData)
    (h : acFind s pid = some d) : acFind (s ++ t) pid = some d := by
  unfold acFind at *
  rcases hf : s.find? (fun e => e.1 == pid) with _ | e
  · rw [hf] at h; cases h
  · rw [hf] at h
    rw [List.find?_append, hf]
    exact h

/-- Helper: setting a different key leaves a key's record unchanged. -/
theorem acFind_acSet_ne (s : AntiCheatState) (pid pid2 : String) (d : PlayerData)
    (hne : pid ≠ pid2) : acFind (acSet s pid2 d) pid = acFind s pid := by
  have hbp : (pid2 == pid) = false := by
    simp [Ne.symm hne]
  have hmap : List.find? (fun e => e.1 == pid)
      (s.map (fun e => if e.1 == pid2 then (pid2, d) else e))
      = List.find? (fun e => e.1 == pid) s := by
    induction s with
    | nil => rfl
    | cons e t ih =>
      cases hpid2 : (e.1 == pid2) with
      | false =>
        cases hpid : (e.1 == pid) with
        | false =>
          simp only [List.map_cons, hpid2, Bool.false_eq_true, if_false, List.find?_cons, hpid]
          exact ih
        | true =>
          simp only [List.map_cons, hpid2, Bool.false_eq_true, if_false, List.find?_cons, hpid]
      | true =>
        have hpidf : (e.1 == pid) = false := by
          have he' : e.1 = pid2 := by simpa using hpid2
          simp [he', Ne.symm hne]
        simp only [List.map_cons, hpid2, if_true, List.find?_cons, hpidf, hbp]
        exact ih
  unfold acSet acFind
  split
  · rw [hmap]
  · rw [List.find?_append]
    have hone : List.find? (fun e => e.1 == pid) [(pid2, d)] = none := by
      simp [Ne.symm hne]
    rw [hone, Option.or_none]

/-- Helper: a flagged participant's `validateInput` call rejects the input
and leaves the whole tracking map untouched. -/
theorem validateInput_flagged (s : AntiCheatState) (pid direction : String) (now : Int)
    (d : PlayerData) (hd : acFind s pid = some d) (hf : d.flagged = true) :
    validateInput s pid direction now = (false, s) := by
  simp only [validateInput, hd, Option.isSome_some, if_true, hf]

/-- Helper: a `validateInput` call for a different participant does not
touch this participant's record. -/
theorem acFind_validateInput_ne (s : AntiCheatState) (pid pid2 direction : String)
    (now : Int) (d : PlayerData) (hd : acFind s pid = some d) (hne : pid ≠ pid2) :
    acFind (validateInput s pid2 direction now).2 pid = some d := by
  have hs1 : acFind (if (acFind s pid2).isSome then s else acSet s pid2 freshPlayerData) pid
      = some d := by
    split
    · exact hd
    · rw [acFind_acSet_ne _ _ _ _ hne]; exact hd
  unfold validateInput
  rcases h2 : acFind (if (acFind s pid2).isSome then s else acSet s pid2 freshPlayerData) pid2
      with _ | data
  · simp only [h2]
    exact hs1
  · simp only [h2]
    split
    · exact hs1
    · split
      · simpa [acFind_acSet_ne _ _ _ _ hne] using hs1
      · split
        · simpa [acFind_acSet_ne _ _ _ _ hne] using hs1
        · split
          · simpa [acFind_acSet_ne _ _ _ _ hne] using hs1
          · simpa [acFind_acSet_ne _ _ _ _ hne] using hs1

/-- C5: once flagged, a participant stays flagged for its connection's
lifetime: its own `validateInput` calls return `false` and leave the
tracking map untouched (so neither the warning count nor the recorded
history grows), calls for other participants leave its record intact, and
no call clears a flag.  `clearPlayerData` discards the participant's
entire record, after which (and for any id without a record, such as a new
connection) `isPlayerFlagged` is `false`.  The flag is set exactly when
the incremented warning count reaches `MAX_WARNINGS = 3`. -/
theorem c5_flag_permanence (s : AntiCheatState) (pid pid2 direction : String) (now : Int)
    (d : PlayerData) (hd : acFind s pid = some d) (hf : d.flagged = true) :
    validateInput s pid direction now = (false, s) ∧
    acFind (validateInput s pid2 direction now).2 pid = some d ∧
    isPlayerFlagged (validateInput s pid2 direction now).2 pid = true ∧
    acFind (clearPlayerData s pid) pid = none ∧
    isPlayerFlagged (clearPlayerData s pid) pid = false ∧
    (∀ d2 : PlayerData, (flagPlayerData d2).warningCount = d2.warningCount + 1 ∧
      (MAX_WARNINGS ≤ d2.warningCount + 1 → (flagPlayerData d2).flagged = true)) ∧
    (∀ s2 : AntiCheatState, ∀ pid3 : String,
      acFind s2 pid3 = none → isPlayerFlagged s2 pid3 = false) := by
  have hpersist : acFind (validateInput s pid2 direction now).2 pid = some d := by
    by_cases heq : pid = pid2
    · subst heq
      rw [validateInput_flagged s pid direction now d hd hf]
      exact hd
    · exact acFind_validateInput_ne s pid pid2 direction now d hd heq
  have hclear : acFind (clearPlayerData s pid) pid = none := by
    unfold clearPlayerData acFind
    have hnone : List.find? (fun e => e.1 == pid) (s.filter (fun e => !(e.1 == pid))) = none := by
      rw [List.find?_eq_none]
      intro x hx
      have := (List.mem_filter.mp hx).2
      simpa using this
    rw [hnone]
    rfl
  refine ⟨validateInput_flagged s pid direction now d hd hf, hpersist, ?_, hclear, ?_, ?_, ?_⟩
  · unfold isPlayerFlagged
    rw [hpersist]
    simpa using hf
  · unfold isPlayerFlagged
    rw [hclear]
    rfl
  · intro d2
    constructor
    · simp only [flagPlayerData]
      split <;> rfl
    · intro h
      simp only [flagPlayerData]
      split
      · rfl
      · rename_i hcond
        exact absurd h (by simpa using hcond)
  · intro s2 pid3 h
    unfold isPlayerFlagged
    rw [h]
    rfl

/-- C5 witness: a concrete flagged participant "x": its next input is
rejected with the tracking map untouched, and after `clearPlayerData`
the id reports unflagged. -/
theorem c5_flag_permanence_witness :
    acFind c5Tracking "x" = some c5FlaggedData ∧ c5FlaggedData.flagged = true ∧
    validateInput c5Tracking "x" "up" 120 = (false, c5Tracking) ∧
    isPlayerFlagged (clearPlayerData c5Tracking "x") "x" = false := by
  refine ⟨by decide, by decide, ?_, ?_⟩
  · exact (c5_flag_permanence c5Tracking "x" "y" "up" 120 c5FlaggedData
      (by decide) (by decide)).1
  · exact (c5_flag_permanence c5Tracking "x" "y" "up" 120 c5FlaggedData
      (by decide) (by decide)).2.2.2.2.1

/-! ### Participant-map and heading lemmas (for C8) -/

/-- Helper: a found participant's id is the lookup key. -/
theorem findPlayer_id (ps : List Player) (pid : String) (p : Player)
    (h : findPlayer ps pid = some p) : p.id = pid := by
  have := List.find?_some h
  simpa using this

/-- Helper: storing a record under the key it carries makes it the lookup
result. -/
theorem findPlayer_setPlayer_found (ps : List Player) (pid : String) (p q : Player)
    (hp : findPlayer ps pid = some p) (hq : q.id = pid) :
    findPlayer (setPlayer ps pid q) pid = some q := by
  have hqb : (q.id == pid) = true := by simpa using hq
  unfold findPlayer setPlayer at *
  induction ps with
  | nil => cases hp
  | cons a t ih =>
    cases ha : (a.id == pid) with
    | true =>
      simp only [List.map_cons, ha, if_true, List.find?_cons, hqb]
    | false =>
      simp only [List.find?_cons, ha] at hp
      simp only [List.map_cons, ha, Bool.false_eq_true, if_false, List.find?_cons, ha]
      exact ih hp

/-- Helper: `Player.setDirection` never changes the heading to its exact
reverse (the guard is precisely the reversal test). -/
theorem setDirection_no_reverse (p : Player) (dx dy : Int) :
    (p.setDirection dx dy).direction = p.direction ∨
    (p.setDirection dx dy).direction ≠ ⟨-p.direction.dx, -p.direction.dy⟩ := by
  unfold Player.setDirection
  split
  · rename_i hguard
    right
    intro hcontra
    have h12 : dx = -p.direction.dx ∧ dy = -p.direction.dy := by
      simpa [Direction.mk.injEq] using hcontra
    rcases hguard with hg | hg
    · exact hg (by rw [h12.1]; ring)
    · exact hg (by rw [h12.2]; ring)
  · left; rfl

/-- Helper: `Player.setDirection` keeps the id. -/
theorem setDirection_id (p : Player) (dx dy : Int) :
    (p.setDirection dx dy).id = p.id := by
  unfold Player.setDirection
  split <;> rfl

/-- Helper: the acceptance chain either leaves the participant unchanged
or routes through `Player.setDirection`. -/
theorem applyDirectionCommand_cases (p : Player) (direction : String) :
    applyDirectionCommand p direction = p ∨
    ∃ dx dy : Int, applyDirectionCommand p direction = p.setDirection dx dy := by
  unfold applyDirectionCommand
  split
  · exact Or.inr ⟨0, -1, rfl⟩
  · split
    · exact Or.inr ⟨0, 1, rfl⟩
    · split
      · exact Or.inr ⟨-1, 0, rfl⟩
      · split
        · exact Or.inr ⟨1, 0, rfl⟩
        · exact Or.inl rfl

/-- Helper: the acceptance chain keeps the id. -/
theorem applyDirectionCommand_id (p : Player) (direction : String) :
    (applyDirectionCommand p direction).id = p.id := by
  rcases applyDirectionCommand_cases p direction with h | ⟨dx, dy, h⟩
  · rw [h]
  · rw [h, setDirection_id]

/-- Helper: a direction returned by the bot scorer passed the
non-reversal filter. -/
theorem calculateBestDirection_filter (gridSize arenaSize : ℚ) (ps : List Player)
    (bot : Player) (d : Direction)
    (h : calculateBestDirection gridSize arenaSize ps bot = some d) :
    (bot.direction.dx + d.dx != 0 || bot.direction.dy + d.dy != 0) = true := by
  simp only [calculateBestDirection] at h
  generalize hsort : List.insertionSort (fun a b => b.2 ≤ a.2)
      (List.map (fun d0 => (d0, scoreDirection gridSize arenaSize ps bot d0))
        (List.filter (fun d0 => bot.direction.dx + d0.dx != 0 || bot.direction.dy + d0.dy != 0)
          possibleDirections)) = l at h
  cases l with
  | nil => cases h
  | cons top rest =>
    have h2 : (if 0 < top.2 then some top.1 else none) = some d := h
    by_cases hpos : (0 : ℚ) < top.2
    · rw [if_pos hpos] at h2
      have htopv : top.1 = d := by
        injection h2 with h1
      have htopmem : top ∈ List.map
          (fun d0 => (d0, scoreDirection gridSize arenaSize ps bot d0))
          (List.filter
            (fun d0 => bot.direction.dx + d0.dx != 0 || bot.direction.dy + d0.dy != 0)
            possibleDirections) :=
        (List.perm_insertionSort _ _).subset (hsort ▸ List.mem_cons_self top rest)
      rcases List.mem_map.mp htopmem with ⟨d0, hd0mem, hd0eq⟩
      have hd0 : d0 = d := by
        rw [← htopv, ← hd0eq]
      rcases List.mem_filter.mp hd0mem with ⟨_, hpred⟩
      rw [← hd0]
      exact hpred
    · rw [if_neg hpos] at h2
      cases h2

/-- Helper: the bot scorer never proposes the exact reverse heading. -/
theorem calculateBestDirection_no_reverse (gridSize arenaSize : ℚ) (ps : List Player)
    (bot : Player) (d : Direction)
    (h : calculateBestDirection gridSize arenaSize ps bot = some d) :
    d ≠ ⟨-bot.direction.dx, -bot.direction.dy⟩ := by
  intro hrev
  have hf := calculateBestDirection_filter gridSize arenaSize ps bot d h
  subst hrev
  simp at hf

/-- C8: a directional command from a living human participant is applied
through the acceptance chain: `up`/`down` leave the participant unchanged
unless the current heading is horizontal (`dy = 0`), `left`/`right`
unless it is vertical (`dx = 0`); any accepted command that changes the
heading never sets it to the exact reverse of the previous heading, and
no bot decision ever returns the exact reverse heading. -/
theorem c8_no_reversal (g : GameState) (pid direction : String) (now : Int)
    (p : Player) (hp : findPlayer g.players pid = some p)
    (halive : p.alive = true) (hbot : p.isBot = false) :
    findPlayer (handlePlayerInput g pid direction now).players pid
      = some { applyDirectionCommand p direction with lastInputTime := now } ∧
    ((direction = "up" ∨ direction = "down") → p.direction.dy ≠ 0 →
      applyDirectionCommand p direction = p) ∧
    ((direction = "left" ∨ direction = "right") → p.direction.dx ≠ 0 →
      applyDirectionCommand p direction = p) ∧
    ((applyDirectionCommand p direction).direction ≠ p.direction →
      (applyDirectionCommand p direction).direction ≠ ⟨-p.direction.dx, -p.direction.dy⟩) ∧
    (∀ d : Direction, calculateBestDirection g.gridSize g.arenaSize g.players p = some d →
      d ≠ ⟨-p.direction.dx, -p.direction.dy⟩) := by
  refine ⟨?_, ?_, ?_, ?_, ?_⟩
  · simp only [handlePlayerInput, hp, halive, hbot, Bool.not_true, Bool.or_self,
      Bool.false_eq_true, if_false]
    exact findPlayer_setPlayer_found _ _ _ _ hp
      (by rw [applyDirectionCommand_id]; exact findPlayer_id _ _ _ hp)
  · rintro (rfl | rfl) hdy <;>
      · have hb : (p.direction.dy == 0) = false := by simpa using hdy
        simp +decide [applyDirectionCommand, hb]
  · rintro (rfl | rfl) hdx <;>
      · have hb : (p.direction.dx == 0) = false := by simpa using hdx
        simp +decide [applyDirectionCommand, hb]
  · intro hch
    rcases applyDirectionCommand_cases p direction with hcase | ⟨dx, dy, hcase⟩
    · rw [hcase] at hch
      exact absurd rfl hch
    · rw [hcase] at hch ⊢
      rcases setDirection_no_reverse p dx dy with h | h
      · exact absurd h hch
      · exact h
  · intro d hd
    exact calculateBestDirection_no_reverse _ _ _ _ _ hd

/-- C8 witness: participant A of the concrete duel state is heading down
(`dy = 1`), so an `up` command leaves it unchanged. -/
theorem c8_no_reversal_witness :
    findPlayer c1Game.players "a" = some c1PlayerA ∧
    applyDirectionCommand c1PlayerA "up" = c1PlayerA :=
  have hp : findPlayer c1Game.players "a" = some c1PlayerA := by decide
  ⟨hp, (c8_no_reversal c1Game "a" "up" 5 c1PlayerA hp rfl rfl).2.1 (Or.inl rfl) (by decide)⟩

/-! ### Lobby sweep (C7) -/

/-- C7: with the bot-backfill kill switch set (demo mode), the periodic
lobby sweep never changes a below-threshold lobby and never starts a
match, regardless of elapsed wait time.  With the switch off, once the
oldest member's wait exceeds the timeout, exactly
`mode.players - lobby.length` bot participants are synthesized, the match
starts with exactly `mode.players` participants, and the lobby empties. -/
theorem c7_bot_backfill (mode : GameModeConfig) (modeId : String) (lobby : List Player)
    (now : Int) :
    lobbyCheckMode true mode modeId lobby now = (lobby, none) ∧
    (1 ≤ lobby.length → lobby.length < mode.players →
      ∀ oldest, lobby.head? = some oldest → now - oldest.joinedAt > LOBBY_TIMEOUT →
      lobbyCheckMode false mode modeId lobby now
        = ([], some ((fillWithBots mode modeId lobby now).take mode.players)) ∧
      (fillWithBots mode modeId lobby now).take mode.players
        = fillWithBots mode modeId lobby now ∧
      (fillWithBots mode modeId lobby now).length = mode.players ∧
      ((fillWithBots mode modeId lobby now).drop lobby.length).length
        = mode.players - lobby.length ∧
      ((fillWithBots mode modeId lobby now).drop lobby.length).all Player.isBot = true) := by
  constructor
  · unfold lobbyCheckMode
    split
    · rcases hh : lobby.head? with _ | oldest
      · rfl
      · simp only [hh]
        rw [if_neg (by simp)]
    · rfl
  · intro h1 h2 oldest hold hwait
    have hfl : (fillWithBots mode modeId lobby now).length = mode.players := by
      unfold fillWithBots
      rw [List.length_append, List.length_map, List.length_range]
      omega
    have htake : (fillWithBots mode modeId lobby now).take mode.players
        = fillWithBots mode modeId lobby now :=
      List.take_of_length_le (le_of_eq hfl)
    have hdrop : (fillWithBots mode modeId lobby now).drop lobby.length
        = (List.range (mode.players - lobby.length)).map (fun i =>
            mkPlayer ("bot_" ++ modeId ++ "_" ++ toString now ++ "_" ++ toString i)
              "BOT_WALLET" (botNames.getD (i % botNames.length) "") true now) := by
      unfold fillWithBots
      exact List.drop_left _ _
    have hfilternil : (fillWithBots mode modeId lobby now).filter
        (fun q => !(((fillWithBots mode modeId lobby now).take mode.players).any
          (fun p => p.id == q.id))) = [] := by
      rw [htake]
      rw [List.filter_eq_nil_iff]
      intro q hq
      have hany : (fillWithBots mode modeId lobby now).any (fun p => p.id == q.id) = true :=
        List.any_eq_true.mpr ⟨q, hq, by simp⟩
      simp [hany]
    have hmain : lobbyCheckMode false mode modeId lobby now
        = ([], some ((fillWithBots mode modeId lobby now).take mode.players)) := by
      unfold lobbyCheckMode
      rw [if_pos ⟨h1, h2⟩]
      simp only [hold]
      rw [if_pos ⟨by trivial, hwait⟩]
      unfold startGame
      rw [if_neg (by
        rw [List.length_take, hfl]
        omega)]
      simp only [hfilternil]
    exact ⟨hmain, htake, hfl, by rw [hdrop]; simp, by
      rw [hdrop, List.all_eq_true]
      intro b hb
      rcases List.mem_map.mp hb with ⟨i, _, rfl⟩
      rfl⟩

/-- C7 witness: one real joiner in the duel lobby; in demo mode the sweep
leaves it waiting forever, with backfill on the sweep starts a 2-player
match after 20 s of waiting. -/
theorem c7_bot_backfill_witness :
    lobbyCheckMode true duelMode "duel" [c7Joiner] 20000 = ([c7Joiner], none) ∧
    ([c7Joiner].head? = some c7Joiner ∧ (20000 : Int) - c7Joiner.joinedAt > LOBBY_TIMEOUT) ∧
    (fillWithBots duelMode "duel" [c7Joiner] 20000).length = duelMode.players ∧
    ((fillWithBots duelMode "duel" [c7Joiner] 20000).drop 1).all Player.isBot = true := by
  have hmain := c7_bot_backfill duelMode "duel" [c7Joiner] 20000
  have hbranch := hmain.2 (by decide) (by decide) c7Joiner rfl (by decide)
  exact ⟨hmain.1, ⟨rfl, by decide⟩, hbranch.2.2.1, hbranch.2.2.2.2⟩

/-! ### Rankings and prize curve (C2) -/

/-- Helper: sorting preserves the participant count. -/
theorem rankedPlayers_length (g : GameState) :
    (rankedPlayers g).length = g.players.length :=
  (List.perm_insertionSort _ _).length_eq

/-- Helper: one payload row per participant. -/
theorem endGameRankings_length (g : GameState) :
    (endGameRankings g).length = g.players.length := by
  unfold endGameRankings
  rw [List.length_map, List.enum_length, rankedPlayers_length]

/-- Helper: the ranked list is sorted by the endGame comparator. -/
theorem rankedPlayers_sorted (g : GameState) :
    List.Sorted rankLE (rankedPlayers g) :=
  List.sorted_insertionSort rankLE g.players

/-- Helper: the k-th payload row, unfolded. -/
theorem endGameRankings_get_eq (g : GameState) (k : Nat)
    (hk : k < (rankedPlayers g).length) (hk2 : k < (endGameRankings g).length) :
    (endGameRankings g).get ⟨k, hk2⟩ =
      { rank := k + 1,
        playerId := ((rankedPlayers g).get ⟨k, hk⟩).id,
        playerName := ((rankedPlayers g).get ⟨k, hk⟩).name,
        alive := ((rankedPlayers g).get ⟨k, hk⟩).alive,
        kills := ((rankedPlayers g).get ⟨k, hk⟩).kills,
        survivalSecs := ((rankedPlayers g).get ⟨k, hk⟩).survivalTime / tickRate,
        prizeShare := calculatePrize g.mode k } := by
  unfold endGameRankings
  simp [List.get_eq_getElem, List.getElem_map, List.getElem_enum]

/-- Helper: ranks beyond the paid ones receive exactly zero. -/
theorem calculatePrize_zero_beyond (mode : GameModeConfig) (k : Nat)
    (hk : paidRanks mode ≤ k) : calculatePrize mode k = 0 := by
  unfold paidRanks at hk
  simp only [calculatePrize]
  by_cases hp2 : mode.players ≤ 2
  · rw [if_pos hp2] at hk
    rw [if_pos hp2]
    have hb : (k == 0) = false := by
      simp only [beq_eq_false_iff_ne, ne_eq]
      omega
    simp [hb]
  · rw [if_neg hp2] at hk
    rw [if_neg hp2]
    by_cases hp4 : mode.players ≤ 4
    · rw [if_pos hp4] at hk
      rw [if_pos hp4]
      rw [if_neg (by simp only [List.length_cons, List.length_nil]; omega)]
    · rw [if_neg hp4] at hk
      rw [if_neg hp4]
      rw [if_neg (by simp only [List.length_cons, List.length_nil]; omega)]

/-- Helper: there are between 1 and 3 paid ranks. -/
theorem paidRanks_bounds (mode : GameModeConfig) :
    1 ≤ paidRanks mode ∧ paidRanks mode ≤ 3 := by
  unfold paidRanks
  by_cases a : mode.players ≤ 2 <;> by_cases b : mode.players ≤ 4 <;> simp [a, b]

/-- Helper: with every paid rank filled, the shares sum to exactly the
mode's prize. -/
theorem prizeSum_filled (mode : GameModeConfig) (n : Nat) (hn : paidRanks mode ≤ n) :
    ∑ k in Finset.range n, calculatePrize mode k = mode.prize := by
  induction n with
  | zero =>
    have := (paidRanks_bounds mode).1
    omega
  | succ m ih =>
    by_cases hm : paidRanks mode ≤ m
    · rw [Finset.sum_range_succ, ih hm, calculatePrize_zero_beyond mode m hm, add_zero]
    · have hexact : paidRanks mode = m + 1 := by omega
      by_cases h2 : mode.players ≤ 2
      · have h1 : m = 0 := by
          unfold paidRanks at hexact
          rw [if_pos h2] at hexact
          omega
        subst h1
        rw [Finset.sum_range_one]
        simp [calculatePrize, h2]
      · by_cases h4 : mode.players ≤ 4
        · have h1 : m = 1 := by
            unfold paidRanks at hexact
            rw [if_neg h2, if_pos h4] at hexact
            omega
          subst h1
          rw [Finset.sum_range_succ, Finset.sum_range_one]
          simp only [calculatePrize, if_neg h2, if_pos h4]
          norm_num [List.getD]
          ring
        · have h1 : m = 2 := by
            unfold paidRanks at hexact
            rw [if_neg h2, if_neg h4] at hexact
            omega
          subst h1
          rw [Finset.sum_range_succ, Finset.sum_range_succ, Finset.sum_range_one]
          simp only [calculatePrize, if_neg h2, if_neg h4]
          norm_num [List.getD]
          ring

/-- Helper: the shares never sum to more than the mode's prize. -/
theorem prizeSum_le (mode : GameModeConfig) (hp : 0 ≤ mode.prize) (n : Nat) :
    ∑ k in Finset.range n, calculatePrize mode k ≤ mode.prize := by
  by_cases hn : paidRanks mode ≤ n
  · rw [prizeSum_filled mode n hn]
  · push_neg at hn
    have hn3 : n ≤ 2 := by
      have := (paidRanks_bounds mode).2
      omega
    interval_cases n
    · simpa using hp
    · have h2 : ¬ mode.players ≤ 2 := by
        intro hc
        unfold paidRanks at hn
        rw [if_pos hc] at hn
        omega
      rw [Finset.sum_range_one]
      by_cases h4 : mode.players ≤ 4
      · simp only [calculatePrize, if_neg h2, if_pos h4]
        norm_num [List.getD]
        linarith
      · simp only [calculatePrize, if_neg h2, if_neg h4]
        norm_num [List.getD]
        linarith
    · have h4 : ¬ mode.players ≤ 4 := by
        intro hc
        unfold paidRanks at hn
        by_cases hc2 : mode.players ≤ 2
        · rw [if_pos hc2] at hn; omega
        · rw [if_neg hc2, if_pos hc] at hn; omega
      have h2 : ¬ mode.players ≤ 2 := fun hc => h4 (by omega)
      rw [Finset.sum_range_succ, Finset.sum_range_one]
      simp only [calculatePrize, if_neg h2, if_neg h4]
      norm_num [List.getD]
      linarith

/-- C2: the emitted rankings have one row per participant with ranks
1..N, every alive participant placed before every eliminated one and
eliminated participants in descending survival-tick order; the prize
share by rank follows the mode's fixed payout curve (winner-take-all for
2-player modes, 75/25 for 4-player modes, 69.4/20.8/9.8 for larger
modes, zero beyond), so the shares sum to at most the mode's prize, with
equality when all paid ranks are filled. -/
theorem c2_rankings_and_prizes (g : GameState) (hprize : 0 ≤ g.mode.prize) :
    (endGameRankings g).length = g.players.length ∧
    (rankedPlayers g).Perm g.players ∧
    (∀ k, ∀ hk : k < (endGameRankings g).length,
      ((endGameRankings g).get ⟨k, hk⟩).rank = k + 1 ∧
      ((endGameRankings g).get ⟨k, hk⟩).prizeShare = calculatePrize g.mode k) ∧
    (∀ i j, ∀ hi : i < (endGameRankings g).length, ∀ hj : j < (endGameRankings g).length,
      i < j → ((endGameRankings g).get ⟨j, hj⟩).alive = true →
        ((endGameRankings g).get ⟨i, hi⟩).alive = true) ∧
    (∀ i j, ∀ hi : i < (rankedPlayers g).length, ∀ hj : j < (rankedPlayers g).length,
      i < j → ((rankedPlayers g).get ⟨i, hi⟩).alive = false →
        ((rankedPlayers g).get ⟨j, hj⟩).alive = false →
        ((rankedPlayers g).get ⟨j, hj⟩).survivalTime
          ≤ ((rankedPlayers g).get ⟨i, hi⟩).survivalTime) ∧
    (g.mode.players ≤ 2 →
      calculatePrize g.mode 0 = g.mode.prize ∧
      ∀ k, 1 ≤ k → calculatePrize g.mode k = 0) ∧
    (¬ g.mode.players ≤ 2 → g.mode.players ≤ 4 →
      calculatePrize g.mode 0 = g.mode.prize * (75/100) ∧
      calculatePrize g.mode 1 = g.mode.prize * (25/100) ∧
      ∀ k, 2 ≤ k → calculatePrize g.mode k = 0) ∧
    (¬ g.mode.players ≤ 4 →
      calculatePrize g.mode 0 = g.mode.prize * (694/1000) ∧
      calculatePrize g.mode 1 = g.mode.prize * (208/1000) ∧
      calculatePrize g.mode 2 = g.mode.prize * (98/1000) ∧
      ∀ k, 3 ≤ k → calculatePrize g.mode k = 0) ∧
    (∑ k in Finset.range g.players.length, calculatePrize g.mode k ≤ g.mode.prize) ∧
    (paidRanks g.mode ≤ g.players.length →
      ∑ k in Finset.range g.players.length, calculatePrize g.mode k = g.mode.prize) := by
  refine ⟨endGameRankings_length g, List.perm_insertionSort _ _, ?_, ?_, ?_, ?_, ?_, ?_,
    prizeSum_le g.mode hprize g.players.length,
    fun hf => prizeSum_filled g.mode g.players.length hf⟩
  · intro k hk
    have hk1 : k < (rankedPlayers g).length := by
      rw [rankedPlayers_length]
      rw [endGameRankings_length] at hk
      exact hk
    rw [endGameRankings_get_eq g k hk1 hk]
    exact ⟨rfl, rfl⟩
  · intro i j hi hj hij haliveJ
    have hi1 : i < (rankedPlayers g).length := by
      rw [rankedPlayers_length]
      rw [endGameRankings_length] at hi
      exact hi
    have hj1 : j < (rankedPlayers g).length := by
      rw [rankedPlayers_length]
      rw [endGameRankings_length] at hj
      exact hj
    rw [endGameRankings_get_eq g j hj1 hj] at haliveJ
    rw [endGameRankings_get_eq g i hi1 hi]
    have hrel := (rankedPlayers_sorted g).rel_get_of_lt
      (a := ⟨i, hi1⟩) (b := ⟨j, hj1⟩) hij
    rcases hrel with ⟨ha, _⟩ | ⟨heq, _⟩
    · exact ha
    · rw [heq]
      exact haliveJ
  · intro i j hi hj hij hdi hdj
    have hrel := (rankedPlayers_sorted g).rel_get_of_lt
      (a := ⟨i, hi⟩) (b := ⟨j, hj⟩) hij
    rcases hrel with ⟨ha, _⟩ | ⟨_, hs⟩
    · rw [hdi] at ha
      cases ha
    · exact hs
  · intro h2
    refine ⟨by simp [calculatePrize, h2], fun k hk => ?_⟩
    apply calculatePrize_zero_beyond
    unfold paidRanks
    rw [if_pos h2]
    exact hk
  · intro h2 h4
    refine ⟨?_, ?_, fun k hk => ?_⟩
    · simp only [calculatePrize, if_neg h2, if_pos h4]
      norm_num [List.getD]
    · simp only [calculatePrize, if_neg h2, if_pos h4]
      norm_num [List.getD]
    · apply calculatePrize_zero_beyond
      unfold paidRanks
      rw [if_neg h2, if_pos h4]
      exact hk
  · intro h4
    have h2 : ¬ g.mode.players ≤ 2 := fun hc => h4 (by omega)
    refine ⟨?_, ?_, ?_, fun k hk => ?_⟩
    · simp only [calculatePrize, if_neg h2, if_neg h4]
      norm_num [List.getD]
    · simp only [calculatePrize, if_neg h2, if_neg h4]
      norm_num [List.getD]
    · simp only [calculatePrize, if_neg h2, if_neg h4]
      norm_num [List.getD]
    · apply calculatePrize_zero_beyond
      unfold paidRanks
      rw [if_neg h2, if_neg h4]
      exact hk

/-- C2 witness: the finished duel pays its full 0.90 prize to rank 1 and
zero to rank 2, and the shares sum to exactly the prize. -/
theorem c2_rankings_and_prizes_witness :
    (0 : ℚ) ≤ c2Game.mode.prize ∧
    (endGameRankings c2Game).length = c2Game.players.length ∧
    ∑ k in Finset.range c2Game.players.length, calculatePrize c2Game.mode k
      = c2Game.mode.prize := by
  have h := c2_rankings_and_prizes c2Game (by norm_num [c2Game, duelMode])
  exact ⟨by norm_num [c2Game, duelMode], h.1,
    h.2.2.2.2.2.2.2.2.2 (by decide)⟩

/-! ### Bot direction scoring (C6) -/

/-- Helper: `BotAI.isCollision` and `Game.checkCollision` share one body. -/
theorem isCollision_eq_checkCollision (gridSize arenaSize : ℚ) (players : List Player)
    (x y : Int) :
    isCollision gridSize arenaSize players x y
      = checkCollision gridSize arenaSize players x y := rfl

/-- Helper: the look-ahead penalty is between 0 and `20 * k`. -/
theorem lookAheadPenalty_bounds (gridSize arenaSize : ℚ) (players : List Player)
    (dx dy : Int) :
    ∀ (k : Nat) (cx cy : Int),
      0 ≤ lookAheadPenalty gridSize arenaSize players dx dy cx cy k ∧
      lookAheadPenalty gridSize arenaSize players dx dy cx cy k ≤ 20 * k := by
  intro k
  induction k with
  | zero =>
    intro cx cy
    simp [lookAheadPenalty]
  | succ n ih =>
    intro cx cy
    simp only [lookAheadPenalty]
    split
    · constructor
      · positivity
      · push_cast
        linarith
    · have hrec := ih (cx + dx) (cy + dy)
      constructor
      · exact hrec.1
      · refine le_trans hrec.2 ?_
        push_cast
        linarith

/-- Helper: a non-colliding candidate's score is at least −146: the
worst case is 100 baseline, −100 look-ahead, −56 center distance (grid
size at most 112), −90 boundary proximity, +0 open space. -/
theorem scoreDirection_free_lower (gridSize arenaSize : ℚ) (players : List Player)
    (bot : Player) (d : Direction) (hgs : gridSize ≤ 112) (has : arenaSize ≤ gridSize)
    (hfree : isCollision gridSize arenaSize players
      (bot.position.x + d.dx) (bot.position.y + d.dy) = false) :
    -146 ≤ scoreDirection gridSize arenaSize players bot d := by
  obtain ⟨hx1, hx2, hy1, hy2⟩ := collisionFalse_bounds gridSize arenaSize players
    (bot.position.x + d.dx) (bot.position.y + d.dy)
    (by rw [← isCollision_eq_checkCollision]; exact hfree)
  have hlim0 : 0 ≤ (gridSize - arenaSize) / 2 := by linarith
  have hlook := lookAheadPenalty_bounds gridSize arenaSize players d.dx d.dy LOOK_AHEAD
    (bot.position.x + d.dx) (bot.position.y + d.dy)
  have hlook100 : lookAheadPenalty gridSize arenaSize players d.dx d.dy
      (bot.position.x + d.dx) (bot.position.y + d.dy) LOOK_AHEAD ≤ 100 := by
    refine le_trans hlook.2 ?_
    norm_num [LOOK_AHEAD]
  have habsx : |((bot.position.x + d.dx : Int) : ℚ) - gridSize / 2| ≤ gridSize / 2 := by
    rw [abs_le]
    constructor <;> linarith
  have habsy : |((bot.position.y + d.dy : Int) : ℚ) - gridSize / 2| ≤ gridSize / 2 := by
    rw [abs_le]
    constructor <;> linarith
  have hopen : (0 : ℚ) ≤ (countOpenSpace gridSize arenaSize players
      (bot.position.x + d.dx) (bot.position.y + d.dy) : ℚ) := by positivity
  have hdte0 : (0 : ℚ) ≤ min
      (min (((bot.position.x + d.dx : Int) : ℚ) - (gridSize - arenaSize) / 2)
        (((bot.position.y + d.dy : Int) : ℚ) - (gridSize - arenaSize) / 2))
      (min (gridSize - (gridSize - arenaSize) / 2 - ((bot.position.x + d.dx : Int) : ℚ))
        (gridSize - (gridSize - arenaSize) / 2 - ((bot.position.y + d.dy : Int) : ℚ))) := by
    refine le_min (le_min ?_ ?_) (le_min ?_ ?_) <;> linarith
  simp only [scoreDirection, hfree, Bool.false_eq_true, if_false]
  split
  · rename_i hedge
    simp only [DANGER_THRESHOLD] at hedge ⊢
    linarith
  · linarith

/-- C6: any candidate heading whose immediate next cell collides scores
exactly −1000, strictly below every non-colliding candidate (whose score
is at least −146 for every configured grid size, all of which are at most
112); and when every non-reversing candidate scores non-positively the
scorer returns no direction and the bot's heading is left unchanged. -/
theorem c6_bot_scoring (gridSize arenaSize : ℚ) (players : List Player) (bot : Player)
    (d1 d2 : Direction) (hgs : gridSize ≤ 112) (has : arenaSize ≤ gridSize)
    (hcol : isCollision gridSize arenaSize players
      (bot.position.x + d1.dx) (bot.position.y + d1.dy) = true)
    (hfree : isCollision gridSize arenaSize players
      (bot.position.x + d2.dx) (bot.position.y + d2.dy) = false) :
    scoreDirection gridSize arenaSize players bot d1 = -1000 ∧
    scoreDirection gridSize arenaSize players bot d1
      < scoreDirection gridSize arenaSize players bot d2 ∧
    ((∀ d0 ∈ possibleDirections.filter (fun d0 =>
        bot.direction.dx + d0.dx != 0 || bot.direction.dy + d0.dy != 0),
      scoreDirection gridSize arenaSize players bot d0 ≤ 0) →
      calculateBestDirection gridSize arenaSize players bot = none) ∧
    (calculateBestDirection gridSize arenaSize players bot = none →
      applyBotDecision gridSize arenaSize players bot = bot) := by
  have hminus : scoreDirection gridSize arenaSize players bot d1 = -1000 := by
    simp [scoreDirection, hcol]
  refine ⟨hminus, ?_, ?_, ?_⟩
  · rw [hminus]
    have := scoreDirection_free_lower gridSize arenaSize players bot d2 hgs has hfree
    linarith
  · intro hall
    simp only [calculateBestDirection]
    generalize hsort : List.insertionSort (fun a b => b.2 ≤ a.2)
        (List.map (fun d0 => (d0, scoreDirection gridSize arenaSize players bot d0))
          (List.filter
            (fun d0 => bot.direction.dx + d0.dx != 0 || bot.direction.dy + d0.dy != 0)
            possibleDirections)) = l
    cases l with
    | nil => rfl
    | cons top rest =>
      have htop : top ∈ List.map
          (fun d0 => (d0, scoreDirection gridSize arenaSize players bot d0))
          (List.filter
            (fun d0 => bot.direction.dx + d0.dx != 0 || bot.direction.dy + d0.dy != 0)
            possibleDirections) :=
        (List.perm_insertionSort _ _).subset (hsort ▸ List.mem_cons_self _ _)
      rcases List.mem_map.mp htop with ⟨d0, hmem, heq⟩
      have hscore : top.2 ≤ 0 := by
        rw [← heq]
        exact hall d0 hmem
      show (if 0 < top.2 then some top.1 else none) = none
      rw [if_neg (by linarith)]
  · intro hnone
    simp [applyBotDecision, hnone]

/-- C6 witness: the concrete edge bot — turning left collides (score
−1000), continuing down is collision-free and scores strictly higher. -/
theorem c6_bot_scoring_witness :
    isCollision 36 36 c6Players (c6Bot.position.x + (-1)) (c6Bot.position.y + 0) = true ∧
    isCollision 36 36 c6Players (c6Bot.position.x + 0) (c6Bot.position.y + 1) = false ∧
    scoreDirection 36 36 c6Players c6Bot ⟨-1, 0⟩ = -1000 ∧
    scoreDirection 36 36 c6Players c6Bot ⟨-1, 0⟩
      < scoreDirection 36 36 c6Players c6Bot ⟨0, 1⟩ := by
  have hcol : isCollision 36 36 c6Players (c6Bot.position.x + (-1)) (c6Bot.position.y + 0)
      = true := by
    norm_num +decide [isCollision, c6Players, c6Bot]
  have hfree : isCollision 36 36 c6Players (c6Bot.position.x + 0) (c6Bot.position.y + 1)
      = false := by
    norm_num +decide [isCollision, c6Players, c6Bot]
  have h := c6_bot_scoring 36 36 c6Players c6Bot ⟨-1, 0⟩ ⟨0, 1⟩
    (by norm_num) (by norm_num) hcol hfree
  exact ⟨hcol, hfree, h.1, h.2.1⟩

/-! ### Movement-fold lemmas (for C4 and C10) -/

/-- Helper: the other per-player updates keep the id. -/
theorem setPosition_id (p : Player) (x y : Int) : (p.setPosition x y).id = p.id := rfl

theorem addTrailSegment_id (p : Player) : p.addTrailSegment.id = p.id := by
  unfold Player.addTrailSegment
  split <;> rfl

theorem eliminate_id (p : Player) : p.eliminate.id = p.id := rfl

/-- Helper: replacing the record at a key by one carrying the same key
leaves the id sequence unchanged. -/
theorem setPlayer_map_id (ps : List Player) (pid : String) (q : Player) (hq : q.id = pid) :
    (setPlayer ps pid q).map Player.id = ps.map Player.id := by
  unfold setPlayer
  rw [List.map_map]
  apply List.map_congr_left
  intro p hp
  by_cases h : (p.id == pid) = true
  · have : p.id = pid := by simpa using h
    simp [Function.comp, h, hq, this]
  · simp only [Bool.not_eq_true] at h
    simp [Function.comp, h]

/-- Helper: a participant keyed differently is untouched by `setPlayer`. -/
theorem mem_setPlayer_ne (ps : List Player) (pid : String) (q p : Player)
    (hmem : p ∈ ps) (hne : p.id ≠ pid) : p ∈ setPlayer ps pid q := by
  unfold setPlayer
  have hb : (p.id == pid) = false := by simpa using hne
  have := List.mem_map_of_mem (fun r => if r.id == pid then q else r) hmem
  simpa [hb] using this

/-- Helper: with unique ids, looking up a member's id finds that member. -/
theorem findPlayer_of_mem_nodup (ps : List Player) (p : Player)
    (hnodup : (ps.map Player.id).Nodup) (hmem : p ∈ ps) :
    findPlayer ps p.id = some p := by
  induction ps with
  | nil => cases hmem
  | cons a t ih =>
    rw [List.map_cons, List.nodup_cons] at hnodup
    rcases List.mem_cons.mp hmem with rfl | hmt
    · unfold findPlayer
      rw [List.find?_cons_of_pos _ (by simp)]
    · by_cases ha : (a.id == p.id) = true
      · exfalso
        have : a.id = p.id := by simpa using ha
        exact hnodup.1 (this ▸ List.mem_map_of_mem Player.id hmt)
      · unfold findPlayer at *
        rw [List.find?_cons_of_neg _ (by simpa using ha)]
        exact ih hnodup.2 hmt

/-- Helper: a field update of the survival tick keeps the id. -/
theorem withSurvival_id (r : Player) (tc : Nat) :
    ({ r with survivalTime := tc } : Player).id = r.id := rfl

/-- Helper: the per-mover loop touches only the processed key: the id
sequence is unchanged and any participant with a different id is left
intact. -/
theorem moveLoop_preserve (gridSize arenaSize : ℚ) (tc : Nat) (p : Player) :
    ∀ (fuel : Nat) (cur : List Player) (pid : String), p.id ≠ pid → p ∈ cur →
      (moveLoop gridSize arenaSize tc fuel cur pid).map Player.id = cur.map Player.id ∧
      p ∈ moveLoop gridSize arenaSize tc fuel cur pid := by
  intro fuel
  induction fuel with
  | zero =>
    intro cur pid h1 h2
    exact ⟨rfl, h2⟩
  | succ n ih =>
    intro cur pid h1 h2
    simp only [moveLoop]
    cases hfind : findPlayer cur pid with
    | none =>
      simp only [hfind]
      exact ⟨by simp, h2⟩
    | some q =>
      simp only [hfind]
      have hqid : q.id = pid := findPlayer_id _ _ _ hfind
      split
      · split
        · refine ⟨setPlayer_map_id _ _ _ (by rw [eliminate_id]; exact hqid), ?_⟩
          exact mem_setPlayer_ne _ _ _ _ h2 h1
        · have hid3 : ({ (({ q with subStep := q.subStep - 1 } : Player).setPosition
              (q.position.x + q.direction.dx) (q.position.y + q.direction.dy)).addTrailSegment
                with survivalTime := tc } : Player).id = pid := by
            rw [withSurvival_id, addTrailSegment_id, setPosition_id]
            exact hqid
          have hmem2 : p ∈ setPlayer cur pid
              ({ (({ q with subStep := q.subStep - 1 } : Player).setPosition
                (q.position.x + q.direction.dx) (q.position.y + q.direction.dy)).addTrailSegment
                  with survivalTime := tc } : Player) :=
            mem_setPlayer_ne _ _ _ _ h2 h1
          have ihr := ih (setPlayer cur pid
              ({ (({ q with subStep := q.subStep - 1 } : Player).setPosition
                (q.position.x + q.direction.dx) (q.position.y + q.direction.dy)).addTrailSegment
                  with survivalTime := tc } : Player)) pid h1 hmem2
          exact ⟨ihr.1.trans (setPlayer_map_id _ _ _ hid3), ihr.2⟩
      · exact ⟨by simp, h2⟩

/-- Helper: the per-participant movement step preserves the id sequence
and leaves any participant eliminated before the tick untouched. -/
theorem processPlayer_dead_step (gridSize arenaSize speed : ℚ) (tc : Nat) (p : Player)
    (hdead : p.alive = false) (cur : List Player) (pid : String)
    (hnodup : (cur.map Player.id).Nodup) (hmem : p ∈ cur) :
    (processPlayer gridSize arenaSize speed tc cur pid).map Player.id = cur.map Player.id ∧
    p ∈ processPlayer gridSize arenaSize speed tc cur pid := by
  unfold processPlayer
  cases hfind : findPlayer cur pid with
  | none =>
    simp only [hfind]
    exact ⟨by simp, hmem⟩
  | some q =>
    simp only [hfind]
    have hqid : q.id = pid := findPlayer_id _ _ _ hfind
    split
    · rename_i halive
      have hne : p.id ≠ pid := by
        intro hcontra
        have hfp : findPlayer cur pid = some p :=
          hcontra ▸ findPlayer_of_mem_nodup cur p hnodup hmem
        rw [hfind] at hfp
        injection hfp with hqp
        rw [← hqp] at hdead
        rw [halive] at hdead
        cases hdead
      have hmem2 : p ∈ setPlayer cur pid ({ q with subStep := q.subStep + speed } : Player) :=
        mem_setPlayer_ne _ _ _ _ hmem hne
      have ihr := moveLoop_preserve gridSize arenaSize tc p
        ({ q with subStep := q.subStep + speed } : Player).subStep.num.toNat
        (setPlayer cur pid ({ q with subStep := q.subStep + speed } : Player)) pid hne hmem2
      exact ⟨ihr.1.trans (setPlayer_map_id _ _ _ hqid), ihr.2⟩
    · exact ⟨by simp, hmem⟩

/-- Helper: `applyBotDecision` keeps the id. -/
theorem applyBotDecision_id (gridSize arenaSize : ℚ) (cur : List Player) (p : Player) :
    (applyBotDecision gridSize arenaSize cur p).id = p.id := by
  unfold applyBotDecision
  cases calculateBestDirection gridSize arenaSize cur p with
  | none => rfl
  | some d => exact setDirection_id p d.dx d.dy

/-- Helper: the per-bot decision step preserves the id sequence and
leaves any eliminated participant untouched. -/
theorem botStep_dead (gridSize arenaSize : ℚ) (botTick : Nat) (p : Player)
    (hdead : p.alive = false) (cur : List Player) (pid : String)
    (hnodup : (cur.map Player.id).Nodup) (hmem : p ∈ cur) :
    (botDecisionStep gridSize arenaSize botTick cur pid).map Player.id
      = cur.map Player.id ∧
    p ∈ botDecisionStep gridSize arenaSize botTick cur pid := by
  unfold botDecisionStep
  cases hfind : findPlayer cur pid with
  | none =>
    simp only [hfind]
    exact ⟨by simp, hmem⟩
  | some q =>
    simp only [hfind]
    have hqid : q.id = pid := findPlayer_id _ _ _ hfind
    split
    · exact ⟨by simp, hmem⟩
    · rename_i hlive
      have halive : q.alive = true := by
        cases hq1 : q.isBot <;> cases hq2 : q.alive <;>
          simp [hq1, hq2] at hlive ⊢
      have hne : p.id ≠ pid := by
        intro hcontra
        have hfp : findPlayer cur pid = some p :=
          hcontra ▸ findPlayer_of_mem_nodup cur p hnodup hmem
        rw [hfind] at hfp
        injection hfp with hqp
        rw [← hqp] at hdead
        rw [halive] at hdead
        cases hdead
      cases hoff : botThinkOffset q.id with
      | none =>
        simp only [hoff]
        exact ⟨by simp, hmem⟩
      | some off =>
        simp only [hoff]
        split
        · exact ⟨by simp, hmem⟩
        · refine ⟨setPlayer_map_id _ _ _ (by rw [applyBotDecision_id]; exact hqid), ?_⟩
          exact mem_setPlayer_ne _ _ _ _ hmem hne

/-- Helper: a fold over ids that stepwise preserves the id sequence and a
fixed eliminated participant preserves both overall. -/
theorem foldl_preserves_dead (p : Player)
    (step : List Player → String → List Player)
    (hstep : ∀ cur pid, (cur.map Player.id).Nodup → p ∈ cur →
      (step cur pid).map Player.id = cur.map Player.id ∧ p ∈ step cur pid) :
    ∀ (ids : List String) (cur : List Player),
      (cur.map Player.id).Nodup → p ∈ cur →
      (ids.foldl step cur).map Player.id = cur.map Player.id ∧ p ∈ ids.foldl step cur := by
  intro ids
  induction ids with
  | nil =>
    intro cur h1 h2
    exact ⟨by simp, h2⟩
  | cons i t ih =>
    intro cur h1 h2
    have hs := hstep cur i h1 h2
    have ihr := ih (step cur i) (by rw [hs.1]; exact h1) hs.2
    rw [List.foldl_cons]
    exact ⟨ihr.1.trans hs.1, ihr.2⟩

/-- Helper: the whole movement phase preserves the id sequence and any
pre-tick eliminated participant. -/
theorem movePhase_dead (gridSize arenaSize speed : ℚ) (tc : Nat) (ps : List Player)
    (p : Player) (hdead : p.alive = false)
    (hnodup : (ps.map Player.id).Nodup) (hmem : p ∈ ps) :
    (movePhase gridSize arenaSize speed tc ps).map Player.id = ps.map Player.id ∧
    p ∈ movePhase gridSize arenaSize speed tc ps :=
  foldl_preserves_dead p (processPlayer gridSize arenaSize speed tc)
    (fun cur pid hn hm => processPlayer_dead_step gridSize arenaSize speed tc p hdead cur pid hn hm)
    (ps.map Player.id) ps hnodup hmem

/-- Helper: the whole bot phase preserves the id sequence and any
eliminated participant. -/
theorem updateBots_dead (gridSize arenaSize : ℚ) (botTick : Nat) (ps : List Player)
    (p : Player) (hdead : p.alive = false)
    (hnodup : (ps.map Player.id).Nodup) (hmem : p ∈ ps) :
    (updateBots gridSize arenaSize botTick ps).map Player.id = ps.map Player.id ∧
    p ∈ updateBots gridSize arenaSize botTick ps :=
  foldl_preserves_dead p (botDecisionStep gridSize arenaSize botTick)
    (fun cur pid hn hm => botStep_dead gridSize arenaSize botTick p hdead cur pid hn hm)
    (ps.map Player.id) ps hnodup hmem

/-- Helper: the bot phase followed by the movement phase — the
participant-mutating part of an active tick — preserves the id sequence
and any pre-tick eliminated participant. -/
theorem movePhaseBots_dead (gridSize arenaSize speed : ℚ) (tc bt : Nat)
    (c : Prop) [Decidable c] (ps : List Player) (p : Player) (hdead : p.alive = false)
    (hnodup : (ps.map Player.id).Nodup) (hmem : p ∈ ps) :
    (movePhase gridSize arenaSize speed tc
        (if c then updateBots gridSize arenaSize bt ps else ps)).map Player.id
      = ps.map Player.id ∧
    p ∈ movePhase gridSize arenaSize speed tc
        (if c then updateBots gridSize arenaSize bt ps else ps) := by
  have hbots : (if c then updateBots gridSize arenaSize bt ps else ps).map Player.id
      = ps.map Player.id ∧ p ∈ (if c then updateBots gridSize arenaSize bt ps else ps) := by
    split
    · exact updateBots_dead gridSize arenaSize bt ps p hdead hnodup hmem
    · exact ⟨rfl, hmem⟩
  have hmove := movePhase_dead gridSize arenaSize speed tc _ p hdead
    (by rw [hbots.1]; exact hnodup) hbots.2
  exact ⟨hmove.1.trans hbots.1, hmove.2⟩

/-- C4: an eliminated participant is frozen.  A tick never removes it
from the participant map (the id sequence is unchanged) and never mutates
its record (the exact record stays a member); a directional input
addressed to it changes nothing; `removePlayer` on it changes nothing; a
disconnecting living participant is eliminated in place (kept in the map,
only its alive flag cleared) exactly like a collision elimination; and
every participant's trail cells — eliminated participants included —
count as collisions for every mover. -/
theorem c4_eliminated_players_frozen (g : GameState) (now nowIn : Int) (direction : String)
    (p : Player) (hnodup : (g.players.map Player.id).Nodup)
    (hmem : p ∈ g.players) (hdead : p.alive = false) :
    (tick now g).players.map Player.id = g.players.map Player.id ∧
    p ∈ (tick now g).players ∧
    handlePlayerInput g p.id direction nowIn = g ∧
    removePlayer g p.id = g ∧
    (∀ q ∈ g.players, q.alive = true →
      (removePlayer g q.id).players.map Player.id = g.players.map Player.id ∧
      q.eliminate ∈ (removePlayer g q.id).players) ∧
    (∀ q ∈ g.players, ∀ c ∈ q.trail,
      checkCollision g.gridSize g.arenaSize g.players c.x c.y = true) := by
  have hfp : findPlayer g.players p.id = some p := findPlayer_of_mem_nodup _ _ hnodup hmem
  have htickpair : (tick now g).players.map Player.id = g.players.map Player.id ∧
      p ∈ (tick now g).players := by
    by_cases hact : g.state = LifecycleState.active
    · simp only [tick, hact, ne_eq, not_true_eq_false, if_false]
      exact movePhaseBots_dead _ _ _ _ _ _ g.players p hdead hnodup hmem
    · have htick : tick now g = g := by simp [tick, hact]
      rw [htick]
      exact ⟨rfl, hmem⟩
  refine ⟨htickpair.1, htickpair.2, ?_, ?_, ?_, ?_⟩
  · simp [handlePlayerInput, hfp, hdead]
  · simp [removePlayer, hfp, hdead]
  · intro q hq halive
    have hfq : findPlayer g.players q.id = some q := findPlayer_of_mem_nodup _ _ hnodup hq
    have helim : eliminatePlayer g.players q.id = setPlayer g.players q.id q.eliminate := by
      simp [eliminatePlayer, hfq]
    have hrem : removePlayer g q.id = { g with players := eliminatePlayer g.players q.id } := by
      simp [removePlayer, hfq, halive]
    rw [hrem]
    constructor
    · show (eliminatePlayer g.players q.id).map Player.id = _
      rw [helim]
      exact setPlayer_map_id _ _ _ (eliminate_id q)
    · show q.eliminate ∈ eliminatePlayer g.players q.id
      rw [helim]
      unfold setPlayer
      have himg := List.mem_map_of_mem (fun r => if r.id == q.id then q.eliminate else r) hq
      simpa using himg
  · intro q hq c hc
    simp only [checkCollision]
    split
    · rfl
    · refine List.any_eq_true.mpr ⟨q, hq, ?_⟩
      refine List.any_eq_true.mpr ⟨c, hc, ?_⟩
      simp

/-- C4 witness: in the finished duel, the eliminated participant B is
still present and untouched after a tick, and inputs or disconnects
addressed to it change nothing. -/
theorem c4_eliminated_players_frozen_witness :
    c2PlayerB ∈ c2Game.players ∧ c2PlayerB.alive = false ∧
    c2PlayerB ∈ (tick 3 c2Game).players ∧
    handlePlayerInput c2Game c2PlayerB.id "up" 9 = c2Game ∧
    removePlayer c2Game c2PlayerB.id = c2Game := by
  have h := c4_eliminated_players_frozen c2Game 3 9 "up" c2PlayerB
    (by decide) (by decide) (by decide)
  exact ⟨by decide, by decide, h.2.1, h.2.2.1, h.2.2.2.1⟩

/-! ### Trail head invariant (C10) -/

/-- Helper: replacing one record preserves a pointwise property when the
new record has it. -/
theorem setPlayer_all {P : Player → Prop} (ps : List Player) (pid : String) (q : Player)
    (hall : ∀ r ∈ ps, P r) (hq : P q) : ∀ r ∈ setPlayer ps pid q, P r := by
  intro r hr
  unfold setPlayer at hr
  rcases List.mem_map.mp hr with ⟨r0, hr0, heq⟩
  rw [← heq]
  split
  · exact hq
  · exact hall r0 hr0

/-- Helper: a completed step re-establishes the trail invariant — the
destination cell is appended to the trail and becomes the position. -/
theorem trailInv_move (p : Player) (x y : Int) (tc : Nat) :
    trailInv ({ (p.setPosition x y).addTrailSegment with survivalTime := tc } : Player) := by
  unfold trailInv Player.setPosition Player.addTrailSegment
  split <;> exact ⟨by simp, by simp⟩

/-- Helper: `setDirection` preserves the trail invariant. -/
theorem trailInv_setDirection (p : Player) (dx dy : Int) (h : trailInv p) :
    trailInv (p.setDirection dx dy) := by
  unfold Player.setDirection
  split
  · exact h
  · exact h

/-- Helper: `applyBotDecision` preserves the trail invariant. -/
theorem trailInv_applyBotDecision (gridSize arenaSize : ℚ) (cur : List Player) (p : Player)
    (h : trailInv p) : trailInv (applyBotDecision gridSize arenaSize cur p) := by
  unfold applyBotDecision
  cases calculateBestDirection gridSize arenaSize cur p with
  | none => exact h
  | some d => exact trailInv_setDirection p d.dx d.dy h

/-- Helper: the per-mover loop preserves the trail invariant pointwise. -/
theorem moveLoop_trailInv (gridSize arenaSize : ℚ) (tc : Nat) :
    ∀ (fuel : Nat) (cur : List Player) (pid : String),
      (∀ r ∈ cur, trailInv r) →
      ∀ r ∈ moveLoop gridSize arenaSize tc fuel cur pid, trailInv r := by
  intro fuel
  induction fuel with
  | zero =>
    intro cur pid hall
    exact hall
  | succ n ih =>
    intro cur pid hall
    simp only [moveLoop]
    cases hfind : findPlayer cur pid with
    | none =>
      simp only [hfind]
      exact hall
    | some q =>
      simp only [hfind]
      have hq : trailInv q := hall q (List.mem_of_find?_eq_some hfind)
      split
      · split
        · exact setPlayer_all _ _ _ hall hq
        · exact ih _ _ (setPlayer_all _ _ _ hall
            (trailInv_move ({ q with subStep := q.subStep - 1 } : Player)
              (q.position.x + q.direction.dx) (q.position.y + q.direction.dy) tc))
      · exact hall

/-- Helper: the per-participant movement step preserves the trail
invariant pointwise. -/
theorem processPlayer_trailInv (gridSize arenaSize speed : ℚ) (tc : Nat)
    (cur : List Player) (pid : String) (hall : ∀ r ∈ cur, trailInv r) :
    ∀ r ∈ processPlayer gridSize arenaSize speed tc cur pid, trailInv r := by
  unfold processPlayer
  cases hfind : findPlayer cur pid with
  | none =>
    simp only [hfind]
    exact hall
  | some q =>
    simp only [hfind]
    have hq : trailInv q := hall q (List.mem_of_find?_eq_some hfind)
    split
    · exact moveLoop_trailInv gridSize arenaSize tc _ _ pid (setPlayer_all _ _ _ hall hq)
    · exact hall

/-- Helper: the per-bot decision step preserves the trail invariant
pointwise. -/
theorem botStep_trailInv (gridSize arenaSize : ℚ) (botTick : Nat)
    (cur : List Player) (pid : String) (hall : ∀ r ∈ cur, trailInv r) :
    ∀ r ∈ botDecisionStep gridSize arenaSize botTick cur pid, trailInv r := by
  unfold botDecisionStep
  cases hfind : findPlayer cur pid with
  | none =>
    simp only [hfind]
    exact hall
  | some q =>
    simp only [hfind]
    have hq : trailInv q := hall q (List.mem_of_find?_eq_some hfind)
    split
    · exact hall
    · cases hoff : botThinkOffset q.id with
      | none =>
        simp only [hoff]
        exact hall
      | some off =>
        simp only [hoff]
        split
        · exact hall
        · exact setPlayer_all _ _ _ hall
            (trailInv_applyBotDecision gridSize arenaSize cur q hq)

/-- Helper: a fold over ids preserves a stepwise-preserved pointwise
property. -/
theorem foldl_preserves_all {P : Player → Prop}
    (step : List Player → String → List Player)
    (hstep : ∀ cur pid, (∀ r ∈ cur, P r) → ∀ r ∈ step cur pid, P r) :
    ∀ (ids : List String) (cur : List Player), (∀ r ∈ cur, P r) →
      ∀ r ∈ ids.foldl step cur, P r := by
  intro ids
  induction ids with
  | nil =>
    intro cur h
    exact h
  | cons i t ih =>
    intro cur h
    rw [List.foldl_cons]
    exact ih (step cur i) (hstep cur i h)

/-- Helper: the participant-mutating part of an active tick preserves the
trail invariant pointwise. -/
theorem movePhaseBots_trailInv (gridSize arenaSize speed : ℚ) (tc bt : Nat)
    (c : Prop) [Decidable c] (ps : List Player) (hall : ∀ r ∈ ps, trailInv r) :
    ∀ r ∈ movePhase gridSize arenaSize speed tc
      (if c then updateBots gridSize arenaSize bt ps else ps), trailInv r := by
  have hbots : ∀ r ∈ (if c then updateBots gridSize arenaSize bt ps else ps), trailInv r := by
    split
    · exact foldl_preserves_all _ (botStep_trailInv gridSize arenaSize bt) _ ps hall
    · exact hall
  exact foldl_preserves_all _ (processPlayer_trailInv gridSize arenaSize speed tc) _ _ hbots

/-- Helper: the head cell of a participant satisfying the trail invariant
is in its trail. -/
theorem position_mem_trail (q : Player) (h : trailInv q) : q.position ∈ q.trail := by
  rcases h with ⟨hne, hlast⟩
  have hmem : q.position ∈ q.trail.getLast? := by
    rw [Option.mem_def]
    exact hlast
  rcases List.mem_getLast?_eq_getLast hmem with ⟨h0, heq⟩
  rw [heq]
  exact List.getLast_mem h0

/-- C10: from spawn onward every participant's trail is non-empty with
its last element equal to the current position: the spawn body seeds the
trail with the spawn cell, and every tick preserves the invariant for
every participant.  Consequently another participant's current head cell
is lethal through the ordinary trail collision check, and a participant
with a cardinal heading never steps onto its own current cell — a step
always leaves it. -/
theorem c10_trail_head_invariant (g : GameState) (now : Int) (p0 : Player) (x y : Int)
    (center : ℚ) (hall : ∀ q ∈ g.players, trailInv q) :
    trailInv (spawnPlayer p0 x y center) ∧
    (∀ q ∈ (tick now g).players, trailInv q) ∧
    (∀ q ∈ g.players,
      checkCollision g.gridSize g.arenaSize g.players q.position.x q.position.y = true) ∧
    (∀ p : Player, (p.direction = ⟨0, 1⟩ ∨ p.direction = ⟨0, -1⟩ ∨
        p.direction = ⟨1, 0⟩ ∨ p.direction = ⟨-1, 0⟩) →
      (⟨p.position.x + p.direction.dx, p.position.y + p.direction.dy⟩ : Position)
        ≠ p.position) := by
  refine ⟨?_, ?_, ?_, ?_⟩
  · simp only [spawnPlayer]
    split <;>
      · apply trailInv_setDirection
        unfold trailInv Player.setPosition Player.addTrailSegment
        split <;> exact ⟨by simp, by simp⟩
  · by_cases hact : g.state = LifecycleState.active
    · simp only [tick, hact, ne_eq, not_true_eq_false, if_false]
      exact movePhaseBots_trailInv _ _ _ _ _ _ g.players hall
    · have htick : tick now g = g := by simp [tick, hact]
      rw [htick]
      exact hall
  · intro q hq
    simp only [checkCollision]
    split
    · rfl
    · refine List.any_eq_true.mpr ⟨q, hq, ?_⟩
      refine List.any_eq_true.mpr ⟨q.position, position_mem_trail q (hall q hq), ?_⟩
      simp
  · intro p hdir hcontra
    have hx : p.position.x + p.direction.dx = p.position.x := congrArg Position.x hcontra
    have hy : p.position.y + p.direction.dy = p.position.y := congrArg Position.y hcontra
    rcases hdir with h | h | h | h <;> rw [h] at hx hy <;> dsimp only at hx hy <;> omega

/-- C10 witness: a freshly spawned participant satisfies the invariant,
the concrete duel state satisfies it, and participant A's head cell is a
collision for any mover. -/
theorem c10_trail_head_invariant_witness :
    trailInv c1PlayerA ∧ trailInv c1PlayerB ∧
    trailInv (spawnPlayer (mkPlayer "s" "w" "S" false 0) 10 12 18) ∧
    checkCollision c1Game.gridSize c1Game.arenaSize c1Game.players
      c1PlayerA.position.x c1PlayerA.position.y = true := by
  have hall : ∀ q ∈ c1Game.players, trailInv q := by
    intro q hq
    simp only [c1Game, List.mem_cons, List.not_mem_nil, or_false] at hq
    rcases hq with rfl | rfl <;> exact ⟨by simp [c1PlayerA, c1PlayerB], by
      simp [trailInv, c1PlayerA, c1PlayerB]⟩
  have h := c10_trail_head_invariant c1Game 0 (mkPlayer "s" "w" "S" false 0) 10 12 18 hall
  exact ⟨hall c1PlayerA (by simp [c1Game]), hall c1PlayerB (by simp [c1Game]),
    h.1, h.2.2.1 c1PlayerA (by simp [c1Game])⟩

end Qron
